import Mathlib

/-!
Date notes (`src/services/date_notes.js`).

A shallow embedding of the calendar hierarchy resolver: a date string is mapped
onto year / month / week / day container notes below a calendar root, and the
missing containers are created on the way.

The note store, the attribute service, the search service and the date
utilities live in other files of the application; they are modelled here from
the specification and are marked as such.  The functions of `date_notes.js`
itself are translated from the source, statement by statement.
-/

namespace DateNotes

/-! ## JavaScript strings -/

/-- JavaScript `String.prototype.substr(start, length)` on a string of plain characters. -/
def substr (s : String) (start len : Nat) : String :=
  ⟨(s.data.drop start).take len⟩

/-- The white space and line terminator characters of JavaScript. -/
def whiteSpace : List Char :=
  [' ', '\t', '\n', '\r', '\x0b', '\x0c', '\xa0', '\u1680', '\u2000', '\u2001', '\u2002',
   '\u2003', '\u2004', '\u2005', '\u2006', '\u2007', '\u2008', '\u2009', '\u200a', '\u2028',
   '\u2029', '\u202f', '\u205f', '\u3000', '\ufeff']

/-- White space removed by `String.prototype.trim`. -/
def isSpace (c : Char) : Bool :=
  whiteSpace.contains c

/-- JavaScript `String.prototype.trim`. -/
def trim (s : String) : String :=
  ⟨((s.data.dropWhile isSpace).reverse.dropWhile isSpace).reverse⟩

/-- JavaScript `String.prototype.padStart(n, c)`. -/
def padStart (s : String) (n : Nat) (c : Char) : String :=
  ⟨List.replicate (n - s.data.length) c ++ s.data⟩

/-- The JavaScript idiom `value || fallback` on a possibly missing string: the
fallback is taken when the value is `null`/`undefined` or the empty string. -/
def orDefault (v : Option String) (fallback : String) : String :=
  match v with
  | some x => if x = "" then fallback else x
  | none => fallback

/-! ## Errors -/

/-- The exceptions a resolution can raise.  The first six are thrown by
`date_notes.js` itself, `invalidDate` and `typeError` come from the runtime and
the date utilities. -/
inductive Error where
  /-- Message `#calendarType should be "monthly" or "weekly"`. -/
  | calendarType
  /-- Message `unknown pattern {token}`. -/
  | unknownPattern (token : String)
  /-- Message `Error Day notes structure, week note don't have parents`. -/
  | weekNoteWithoutParents
  /-- Message `Can't find weekly parent note of date "dateStr"`. -/
  | noWeeklyParent (dateStr : String)
  /-- Message `Failed to clone weekly note of date "dateStr": message`. -/
  | cloneFailed (dateStr : String) (message : String)
  /-- Message `Unrecognized start of the week value`. -/
  | startOfTheWeek (value : String)
  /-- A date string that is not a date. -/
  | invalidDate (dateStr : String)
  /-- A JavaScript `TypeError`. -/
  | typeError (what : String)
  deriving DecidableEq, Repr

deriving instance DecidableEq for Except

/-! ## Calendar dates -/

/-- The calendar fields of a JavaScript `Date` that `date_notes.js` reads:
full year, month (1 to 12) and day of the month. -/
structure LocalDate where
  year : Int
  month : Nat
  day : Nat
  deriving DecidableEq, Repr

/-- Leap years of the Gregorian calendar. -/
def isLeapYear (y : Int) : Bool :=
  (y % 4 == 0 && y % 100 != 0) || y % 400 == 0

/-- Number of days of a month. -/
def daysInMonth (y : Int) (m : Nat) : Nat :=
  if m == 2 then (if isLeapYear y then 29 else 28)
  else if m == 4 || m == 6 || m == 9 || m == 11 then 30
  else 31

/-- Days between 1970-01-01 and a civil date (proleptic Gregorian calendar). -/
def daysFromCivil (y : Int) (m d : Nat) : Int :=
  let y1 : Int := if m ≤ 2 then y - 1 else y
  let era : Int := y1 / 400
  let yoe : Int := y1 - era * 400
  let mp : Int := ((m : Int) + 9) % 12
  let doy : Int := (153 * mp + 2) / 5 + (d : Int) - 1
  let doe : Int := yoe * 365 + yoe / 4 - yoe / 100 + doy
  era * 146097 + doe - 719468

/-- The civil date of a day number, inverse of `daysFromCivil`. -/
def civilFromDays (z0 : Int) : LocalDate :=
  let z : Int := z0 + 719468
  let era : Int := z / 146097
  let doe : Int := z - era * 146097
  let yoe : Int := (doe - doe / 1460 + doe / 36524 - doe / 146096) / 365
  let doy : Int := doe - (365 * yoe + yoe / 4 - yoe / 100)
  let mp : Int := (5 * doy + 2) / 153
  let d : Int := doy - (153 * mp + 2) / 5 + 1
  let m : Int := if mp < 10 then mp + 3 else mp - 9
  let y : Int := yoe + era * 400
  { year := if m ≤ 2 then y + 1 else y, month := m.toNat, day := d.toNat }

namespace LocalDate

/-- JavaScript `Date.prototype.getFullYear`. -/
def getFullYear (d : LocalDate) : Int := d.year

/-- JavaScript `Date.prototype.getMonth`: January is 0. -/
def getMonth (d : LocalDate) : Nat := d.month - 1

/-- JavaScript `Date.prototype.getDate`: the day of the month. -/
def getDate (d : LocalDate) : Nat := d.day

/-- JavaScript `Date.prototype.getDay`: Sunday is 0, Saturday is 6. -/
def getDay (d : LocalDate) : Nat :=
  ((daysFromCivil d.year d.month d.day + 4) % 7).toNat

/-- JavaScript `Date.prototype.setDate(n)`: the day of the month is replaced; a value
outside the month rolls over into the neighbouring months. -/
def setDate (d : LocalDate) (n : Int) : LocalDate :=
  civilFromDays (daysFromCivil d.year d.month 1 + n - 1)

/-- Day of the year, 1 January is 1. -/
def dayOfYear (d : LocalDate) : Nat :=
  (daysFromCivil d.year d.month d.day - daysFromCivil d.year 1 1 + 1).toNat

end LocalDate

/-- The JavaScript constructor `new Date(year, monthIndex, day)`;
`monthIndex` counts from 0.  A year from 0 to 99 is read as 1900 to 1999, the
legacy rule of the constructor; every other year is kept. -/
def newDate (year : Int) (monthIndex day : Nat) : LocalDate :=
  { year := if 0 ≤ year ∧ year ≤ 99 then 1900 + year else year,
    month := monthIndex + 1, day := day }

/-- Decimal value of a run of digits, `none` when a character is not a digit. -/
def digitsValue : List Char → Option Nat
  | [] => some 0
  | cs =>
    if cs.all Char.isDigit then
      some (cs.foldl (fun acc c => 10 * acc + (c.toNat - '0'.toNat)) 0)
    else none

/-- Modelled from the spec: `dateUtils.parseLocalDate` is not part of
`date_notes.js`; the spec lists it as "parse canonical date".  The first ten
characters have to be `YYYY-MM-DD` with a month from 01 to 12 and a day that
exists in that month; anything else is rejected. -/
def parseLocalDate (str : String) : Except Error LocalDate :=
  match (substr str 0 10).data with
  | [y1, y2, y3, y4, '-', m1, m2, '-', d1, d2] =>
    match digitsValue [y1, y2, y3, y4], digitsValue [m1, m2], digitsValue [d1, d2] with
    | some y, some m, some d =>
      if 1 ≤ m ∧ m ≤ 12 ∧ 1 ≤ d ∧ d ≤ daysInMonth y m then
        .ok { year := y, month := m, day := d }
      else .error (.invalidDate str)
    | _, _, _ => .error (.invalidDate str)
  | _ => .error (.invalidDate str)

/-- Two decimal digits of a number below 100. -/
def twoDigits (n : Nat) : String :=
  padStart (toString n) 2 '0'

/-- Four decimal digits of a year, sign first for a negative one. -/
def fourDigits (y : Int) : String :=
  padStart (toString y) 4 '0'

/-- Modelled from the spec: `dateUtils.utcDateStr` is not part of
`date_notes.js`; the spec lists it as "format canonical date/time strings" and
describes the `isoDate` token as the canonical date string `YYYY-MM-DD`. -/
def utcDateStr (d : LocalDate) : String :=
  fourDigits d.year ++ "-" ++ twoDigits d.month ++ "-" ++ twoDigits d.day

/-- Modelled from the spec: `dateUtils.utcDateTimeStr` is not part of
`date_notes.js`; the spec lists it as "format canonical date/time strings".
A parsed local date stands for noon of that day. -/
def utcDateTimeStr (d : LocalDate) : String :=
  utcDateStr d ++ " 12:00:00.000Z"

/-- A canonical date string: exactly ten characters that parse as a date. -/
def IsCanonicalDate (str : String) : Prop :=
  str.data.length = 10 ∧ ∃ d, parseLocalDate str = .ok d

instance (str : String) : Decidable (IsCanonicalDate str) := by
  unfold IsCanonicalDate
  cases h : parseLocalDate str with
  | ok d => exact decidable_of_iff (str.data.length = 10) (by simp)
  | error e => exact isFalse (by simp)

/-! ## The note store -/

/-- Note identifiers are natural numbers; `ROOT` is the identifier of the
root of the whole note tree (`root` in the application). -/
def ROOT : Nat := 0


/-- The two kinds of attribute. -/
inductive AttrType where
  | label
  | relation
  deriving DecidableEq, Repr

/-- An owned attribute of a note. -/
structure Attribute where
  type : AttrType
  name : String
  value : String
  deriving DecidableEq, Repr

/-- A note: identity, title, protected flag, owned attributes in the order
they were attached, and the notes it is a child of (one per branch). -/
structure Note where
  noteId : Nat
  title : String
  isProtected : Bool
  attributes : List Attribute
  parents : List Nat
  deriving DecidableEq, Repr

/-- The note store: all notes, oldest first. -/
abbrev Store := List Note

/-- The note with a given identifier. -/
def getNote (s : Store) (noteId : Nat) : Option Note :=
  s.find? (fun n => n.noteId == noteId)

/-- Modelled from the spec: `BNote.getOwnedAttribute(type, name)` is not part
of `date_notes.js`; the spec lists it as "read owned label/relation by name".
The first owned attribute of that type and name. -/
def Note.getOwnedAttribute (n : Note) (type : AttrType) (name : String) : Option Attribute :=
  n.attributes.find? (fun a => a.type == type && a.name == name)

/-- Modelled from the spec: `BNote.getOwnedLabelValue(name)` is not part of
`date_notes.js`; the spec lists it as "read owned label/relation by name".
The value of the first owned label of that name. -/
def Note.getOwnedLabelValue (n : Note) (name : String) : Option String :=
  (n.getOwnedAttribute .label name).map (fun a => a.value)

/-- Reading an owned attribute of the note with a given identifier, in the
current store. -/
def getOwnedAttribute (s : Store) (noteId : Nat) (type : AttrType) (name : String) :
    Option Attribute :=
  (getNote s noteId).bind (fun n => n.getOwnedAttribute type name)

/-- Reading an owned label value of the note with a given identifier, in the
current store. -/
def getOwnedLabelValue (s : Store) (noteId : Nat) (name : String) : Option String :=
  (getNote s noteId).bind (fun n => n.getOwnedLabelValue name)

/-- Modelled from the spec: `BNote.getParentNotes()` is not part of
`date_notes.js`.  The parents of a note, an empty list when it has none. -/
def getParentNotes (s : Store) (noteId : Nat) : List Nat :=
  match getNote s noteId with
  | some n => n.parents
  | none => []

/-- An identifier that no note of the store has and that no note names as a
parent. -/
def freshId (s : Store) : Nat :=
  (s.foldr (fun n acc => max acc (max n.noteId (n.parents.foldr max 0))) 0) + 1

/-- Modelled from the spec: `noteService.createNewNote` is not part of
`date_notes.js`; the spec lists it as "note-store create (parent id, title,
content, protected flag, type)".  A new note with a fresh identifier, no
attributes and the given parent is added to the store. -/
def createNewNote (s : Store) (parentNoteId : Nat) (title : String) (isProtected : Bool) :
    Nat × Store :=
  (freshId s, s ++ [{ noteId := freshId s, title := title, isProtected := isProtected,
                      attributes := [], parents := [parentNoteId] }])

/-- Attaching one owned attribute to the note with the given identifier. -/
def addAttribute (s : Store) (noteId : Nat) (a : Attribute) : Store :=
  s.map (fun n => if n.noteId == noteId then { n with attributes := n.attributes ++ [a] } else n)

/-- Modelled from the spec: `attributeService.createLabel` is not part of
`date_notes.js`; the spec lists it as "attribute store (create
label/relation)".  A label without a value has the empty value. -/
def createLabel (s : Store) (noteId : Nat) (name : String) (value : String) : Store :=
  addAttribute s noteId { type := .label, name := name, value := value }

/-- Modelled from the spec: `attributeService.createRelation` is not part of
`date_notes.js`; the spec lists it as "attribute store (create
label/relation)". -/
def createRelation (s : Store) (noteId : Nat) (name : String) (target : String) : Store :=
  addAttribute s noteId { type := .relation, name := name, value := target }

/-- Whether `anc` is reached from `noteId` by following at most `depth` parent
links. -/
def reaches : Nat → Store → Nat → Nat → Bool
  | 0, _, noteId, anc => noteId == anc
  | depth + 1, s, noteId, anc =>
    noteId == anc || (getParentNotes s noteId).any (fun p => reaches depth s p anc)

/-- Whether a note lies in the subtree of `anc`, `anc` itself included.  A
shortest chain of parent links never visits a note twice, so the number of
notes bounds its length. -/
def isInSubtree (s : Store) (noteId anc : Nat) : Bool :=
  reaches s.length s noteId anc

/-- The two queries `date_notes.js` sends to the search service. -/
inductive Query where
  /-- Query `#name`: a label of that name is present. -/
  | hasLabel (name : String)
  /-- Query `#name="value"`: a label of that name has that value. -/
  | labelEq (name : String) (value : String)
  deriving DecidableEq, Repr

/-- Whether a note, by its owned labels, answers a query. -/
def Query.matches (q : Query) (n : Note) : Bool :=
  match q with
  | .hasLabel name => n.attributes.any (fun a => a.type == .label && a.name == name)
  | .labelEq name value =>
    n.attributes.any (fun a => a.type == .label && a.name == name && a.value == value)

/-- The part of a `SearchContext` that `date_notes.js` sets: the note whose
subtree is searched, the whole store when absent. -/
structure SearchContext where
  ancestorNoteId : Option Nat := none
  deriving DecidableEq, Repr

/-- Whether a note lies in the scope of a search. -/
def SearchContext.inScope (ctx : SearchContext) (s : Store) (n : Note) : Bool :=
  match ctx.ancestorNoteId with
  | some anc => isInSubtree s n.noteId anc
  | none => true

/-- Modelled from the spec: `searchService.findFirstNoteWithQuery` is not part
of `date_notes.js`; the spec lists it as "find first note matching an equality
or presence query scoped to an ancestor".  The oldest note in the subtree of
the ancestor that answers the query. -/
def findFirstNoteWithQuery (s : Store) (q : Query) (ctx : SearchContext) : Option Nat :=
  (s.find? (fun n => q.matches n && ctx.inScope s n)).map (fun n => n.noteId)

/-- Modelled from the spec: `attributeService.getNoteWithLabel` is not part of
`date_notes.js`.  The oldest note of the whole store carrying the label. -/
def getNoteWithLabel (s : Store) (name : String) : Option Nat :=
  findFirstNoteWithQuery s (.hasLabel name) {}

/-- The outcome of `BNote.cloneTo`. -/
structure CloneStatus where
  success : Bool
  message : String
  deriving DecidableEq, Repr

/-- Modelled from the spec: `BNote.cloneTo` is not part of `date_notes.js`; the
spec lists it as "note multi-parent attach (clone) operation reporting
success/failure with a message" and asks for the notes to stay a directed
acyclic graph.  The note gets the target as one more parent; the attach is
refused when the target is missing, is already a parent, or lies in the
subtree of the note. -/
def cloneTo (s : Store) (noteId parentNoteId : Nat) : CloneStatus × Store :=
  if (getNote s parentNoteId).isNone then
    ({ success := false, message := "Parent note does not exist." }, s)
  else if (getParentNotes s noteId).contains parentNoteId then
    ({ success := false, message := "This note already exists in the target." }, s)
  else if isInSubtree s parentNoteId noteId then
    ({ success := false, message := "Cloning note here would create a cycle." }, s)
  else
    ({ success := true, message := "" },
      s.map (fun n => if n.noteId == noteId then { n with parents := n.parents ++ [parentNoteId] }
                      else n))

/-! ## Collaborators taken as parameters -/

/-- The parts of the environment of a call that `date_notes.js` reads and that
are defined elsewhere: the week numbering of the date utilities
(`dateUtils.getWeek(date, startOfTheWeek)`, which raises on an unknown start of
the week), whether the session of the caller may see protected content
(`protectedSessionService.isProtectedSessionAvailable()`), and the note of the
active workspace (`hoistedNoteService.getWorkspaceNote()`). -/
structure Env where
  getWeek : LocalDate → String → Except Error Nat
  isProtectedSessionAvailable : Bool
  workspaceNote : Nat

/-- The `options` argument of `getWeekNote` and `getNoteTitle`. -/
structure Options where
  startOfTheWeek : Option String := none
  deriving DecidableEq, Repr

/-- The options read off a note object that stands in the `options` position:
a note has no `startOfTheWeek` property, the read gives `undefined`. -/
def optionsOfNote (_note : Nat) : Options :=
  { startOfTheWeek := none }

/-- The outcome of a resolution: a value and the store it leaves, an exception
and the store it leaves, or a run that was cut off. -/
inductive Result (α : Type) where
  | ok (value : α) (store : Store)
  | error (e : Error) (store : Store)
  | outOfFuel
  deriving DecidableEq, Repr

/-! ## Constants of `date_notes.js` -/

def CALENDAR_ROOT_LABEL : String := "calendarRoot"
def YEAR_LABEL : String := "yearNote"
def MONTH_LABEL : String := "monthNote"
def WEEK_LABEL : String := "weekNote"
def DATE_LABEL : String := "dateNote"

def DAYS : List String :=
  ["Sunday", "Monday", "Tuesday", "Wednesday", "Thursday", "Friday", "Saturday"]

def MONTHS : List String :=
  ["January", "February", "March", "April", "May", "June", "July", "August", "September",
   "October", "November", "December"]

/-! ## `createNote` and `getRootCalendarNote` -/

/-- Source `createNote(parentNote, noteTitle)`: a text note below the parent,
protected when the parent is and the session allows it. -/
def createNote (env : Env) (s : Store) (parentNote : Nat) (noteTitle : String) :
    Nat × Store :=
  createNewNote s parentNote noteTitle
    (((getNote s parentNote).map (fun n => n.isProtected)).getD false
      && env.isProtectedSessionAvailable)

/-- Source `getRootCalendarNote()`: the workspace calendar root when a
workspace is active, else the first note labelled `calendarRoot`, else a new
note `Calendar` below the root of the tree. -/
def getRootCalendarNote (env : Env) (s : Store) : Nat × Store :=
  let rootNote : Option Nat :=
    if env.workspaceNote != ROOT then
      findFirstNoteWithQuery s (.hasLabel "workspaceCalendarRoot")
        { ancestorNoteId := some env.workspaceNote }
    else none
  let rootNote : Option Nat :=
    match rootNote with
    | some r => some r
    | none => getNoteWithLabel s CALENDAR_ROOT_LABEL
  match rootNote with
  | some r => (r, s)
  | none =>
    let created := createNewNote s ROOT "Calendar" false
    let s1 := createLabel created.2 created.1 CALENDAR_ROOT_LABEL ""
    let s2 := createLabel s1 created.1 "sorted" ""
    (created.1, s2)

/-- The opening `if (!rootNote) rootNote = getRootCalendarNote()` of the four
resolvers. -/
def resolveRoot (env : Env) (rootNote : Option Nat) (s : Store) : Nat × Store :=
  match rootNote with
  | some r => (r, s)
  | none => getRootCalendarNote env s

/-! ## `getNoteTitle` -/

/-- Word characters of a regular expression, `\w`. -/
def isWordChar (c : Char) : Bool :=
  c.isAlphanum || c == '_'

/-- The name of a token, read right after an opening brace: one or more word
characters closed by a brace (the regular expression `{(\w+)}`). -/
def readToken (cs : List Char) : Option String :=
  let w := cs.takeWhile isWordChar
  if w.isEmpty then none
  else
    match cs.drop w.length with
    | '}' :: _ => some ⟨w⟩
    | _ => none

/-- JavaScript `pattern.replace(/{(\w+)}/g, f)`: every token is replaced, from
left to right, by what `f` gives for its name; the first exception of `f` ends
the replacement.  `skip` counts the characters of a token still to be passed
over. -/
def replaceTokens (f : String → Except Error String) :
    Nat → List Char → Except Error (List Char)
  | _, [] => .ok []
  | skip + 1, _ :: cs => replaceTokens f skip cs
  | 0, c :: cs =>
    if c == '{' then
      match readToken cs with
      | some token =>
        match f token with
        | .error e => .error e
        | .ok r =>
          match replaceTokens f (token.data.length + 1) cs with
          | .error e => .error e
          | .ok rest => .ok (r.data ++ rest)
      | none =>
        match replaceTokens f 0 cs with
        | .error e => .error e
        | .ok rest => .ok (c :: rest)
    else
      match replaceTokens f 0 cs with
      | .error e => .error e
      | .ok rest => .ok (c :: rest)

/-- The `switch` of `getNoteTitle`: what one token stands for. -/
def expandToken (env : Env) (dateStr : String) (dateObj : LocalDate) (weekDay : String)
    (startOfTheWeek : String) (token : String) : Except Error String :=
  if token = "year" then .ok (substr dateStr 0 4)
  else if token = "month" then .ok (MONTHS.getD dateObj.getMonth "undefined")
  else if token = "monthNumberPadded" then .ok (substr dateStr 5 2)
  else if token = "weekNumber" then
    match env.getWeek dateObj startOfTheWeek with
    | .error e => .error e
    | .ok weekNum => .ok (toString weekNum)
  else if token = "weekNumberPadded" then
    match env.getWeek dateObj startOfTheWeek with
    | .error e => .error e
    | .ok weekNum => if weekNum ≤ 9 then .ok ("0" ++ toString weekNum) else .ok (toString weekNum)
  else if token = "weekDay" then .ok weekDay
  else if token = "weekDay3" then .ok (substr weekDay 0 3)
  else if token = "weekDay2" then .ok (substr weekDay 0 2)
  else if token = "dayInMonthPadded" then .ok (substr dateStr 8 2)
  else if token = "isoDate" then .ok (utcDateStr dateObj)
  else .error (.unknownPattern token)

/-- Source `getNoteTitle(pattern, dateStr, options = {})`. -/
def getNoteTitle (env : Env) (pattern : String) (dateStr : String) (options : Options) :
    Except Error String :=
  match parseLocalDate dateStr with
  | .error e => .error e
  | .ok dateObj =>
    let weekDay := DAYS.getD dateObj.getDay "undefined"
    let startOfTheWeek := orDefault options.startOfTheWeek "monday"
    match replaceTokens (expandToken env dateStr dateObj weekDay startOfTheWeek) 0 pattern.data with
    | .error e => .error e
    | .ok title => .ok ⟨title⟩

/-! ## `getStartOfTheWeek` and the week label -/

/-- Source `getStartOfTheWeek(date, startOfTheWeek)`. -/
def getStartOfTheWeek (date : LocalDate) (startOfTheWeek : String) : Except Error LocalDate :=
  let day : Int := date.getDay
  if startOfTheWeek = "monday" then
    .ok (date.setDate ((date.getDate : Int) - day + (if day = 0 then -6 else 1)))
  else if startOfTheWeek = "sunday" then
    .ok (date.setDate ((date.getDate : Int) - day))
  else .error (.startOfTheWeek startOfTheWeek)

/-- The value of `weekStr` in `getWeekNote` (source lines 276 to 289): the
label value that is searched for and attached.  The last day of the year
before is built with `new Date(year - 1, 11, 31)`, which reads a year from 0
to 99 as 1900 to 1999. -/
def weekStr (env : Env) (dateStr : String) (options : Options) : Except Error String :=
  match parseLocalDate dateStr with
  | .error e => .error e
  | .ok dateObj =>
    let startOfTheWeek := orDefault options.startOfTheWeek "monday"
    match env.getWeek dateObj startOfTheWeek with
    | .error e => .error e
    | .ok weekNumber =>
      let yearStr := substr (trim dateStr) 0 4
      if weekNumber != 0 then
        .ok (yearStr ++ "WW" ++ toString weekNumber)
      else
        let lastDayOfYear := newDate (dateObj.getFullYear - 1) 11 31
        match env.getWeek lastDayOfYear startOfTheWeek with
        | .error e => .error e
        | .ok lastWeekNumber =>
          let yearStr1 := padStart (toString (dateObj.getFullYear - 1)) 4 '0'
          .ok (yearStr1 ++ "WW" ++ toString lastWeekNumber)

/-- The loop of `getParentNote`: the segment before `label` in the pattern,
`root` when `label` comes first, and the last segment when `label` is not in
the pattern (the loop then runs to its end). -/
def parentLabelLoop (label : String) : String → List String → String
  | parentLabel, [] => parentLabel
  | parentLabel, currLabel :: rest =>
    if currLabel = label then parentLabel else parentLabelLoop label currLabel rest

/-- JavaScript `!value` on an array: an array is an object and every object is
truthy, the empty array too, so the negation is always false. -/
def arrayIsFalsy (_xs : List Nat) : Bool := false

/-- The transaction that ends `getYearNote`, `getMonthNote` and `getWeekNote`:
the note is created below the parent, gets its granularity label and `sorted`,
and the `template` relation when the root has the template relation. -/
def createContainer (env : Env) (s : Store) (rootNote parentNote : Nat)
    (noteTitle labelName labelValue templateName : String) : Nat × Store :=
  let created := createNote env s parentNote noteTitle
  let s1 := createLabel created.2 created.1 labelName labelValue
  let s2 := createLabel s1 created.1 "sorted" ""
  match getOwnedAttribute s2 rootNote .relation templateName with
  | some templateAttr => (created.1, createRelation s2 created.1 "template" templateAttr.value)
  | none => (created.1, s2)

/-- The transaction that ends `getDayNote`: as `createContainer`, without the
`sorted` label. -/
def createDayContainer (env : Env) (s : Store) (rootNote parentNote : Nat)
    (noteTitle labelValue : String) : Nat × Store :=
  let created := createNote env s parentNote noteTitle
  let s1 := createLabel created.2 created.1 DATE_LABEL labelValue
  match getOwnedAttribute s1 rootNote .relation "dateTemplate" with
  | some templateAttr => (created.1, createRelation s1 created.1 "template" templateAttr.value)
  | none => (created.1, s1)

/-! ## The resolvers

`getParentNote`, `getYearNote`, `getMonthNote`, `getDayNote` and `getWeekNote`
call each other.  The first argument bounds the depth of the calls: every call
takes one unit, a run that needs more ends in `outOfFuel`. -/

mutual

/-- Source `getParentNote(label, dateStr, rootNote)`.  The result `none` is the
`return null` after the `switch`.  In the `week` case the source calls
`getWeekNote(dateStr, rootNote)`: the root note is the second argument, the
`options` of `getWeekNote`, and the third argument is left out. -/
def getParentNote : Nat → Env → String → String → Nat → Store → Result (Option Nat)
  | 0, _, _, _, _, _ => .outOfFuel
  | fuel + 1, env, label, dateStr, rootNote, s =>
    let type := orDefault (getOwnedLabelValue s rootNote "calendarType") "monthly"
    if type ≠ "monthly" ∧ type ≠ "weekly" then .error .calendarType s
    else
      let pattern : List String :=
        if type = "monthly" then ["year", "month", "day"] else ["year", "week", "day"]
      let parentLabel := parentLabelLoop label "root" pattern
      if parentLabel = "root" then .ok (some rootNote) s
      else if parentLabel = "year" then
        match getYearNote fuel env dateStr (some rootNote) s with
        | .ok note s1 => .ok (some note) s1
        | .error e s1 => .error e s1
        | .outOfFuel => .outOfFuel
      else if parentLabel = "month" then
        match getMonthNote fuel env dateStr (some rootNote) s with
        | .ok note s1 => .ok (some note) s1
        | .error e s1 => .error e s1
        | .outOfFuel => .outOfFuel
      else if parentLabel = "week" then
        match getWeekNote fuel env dateStr (optionsOfNote rootNote) none s with
        | .ok note s1 => .ok (some note) s1
        | .error e s1 => .error e s1
        | .outOfFuel => .outOfFuel
      else if parentLabel = "day" then
        match getDayNote fuel env dateStr (some rootNote) s with
        | .ok note s1 => .ok (some note) s1
        | .error e s1 => .error e s1
        | .outOfFuel => .outOfFuel
      else .ok none s

/-- Source `getYearNote(dateStr, rootNote = null)`.  In the branch for a
missing parent the source calls `setDate` on the number that `setMonth`
returns, which raises a `TypeError` before `getDayNote` is called. -/
def getYearNote : Nat → Env → String → Option Nat → Store → Result Nat
  | 0, _, _, _, _ => .outOfFuel
  | fuel + 1, env, dateStr, rootArg, s0 =>
    let rootNote := (resolveRoot env rootArg s0).1
    let s := (resolveRoot env rootArg s0).2
    let yearStr := substr (trim dateStr) 0 4
    match findFirstNoteWithQuery s (.labelEq YEAR_LABEL yearStr)
        { ancestorNoteId := some rootNote } with
    | some yearNote => .ok yearNote s
    | none =>
      let pattern := orDefault (getOwnedLabelValue s rootNote "yearPattern") "\x7byear\x7d"
      match getParentNote fuel env "year" dateStr rootNote s with
      | .outOfFuel => .outOfFuel
      | .error e s1 => .error e s1
      | .ok none s1 =>
        match parseLocalDate dateStr with
        | .error e => .error e s1
        | .ok _ => .error (.typeError "dateObj.setMonth(...).setDate is not a function") s1
      | .ok (some parentNote) s1 =>
        match getNoteTitle env pattern dateStr {} with
        | .error e => .error e s1
        | .ok noteTitle =>
          let created := createContainer env s1 rootNote parentNote noteTitle
            YEAR_LABEL yearStr "yearTemplate"
          .ok created.1 created.2

/-- Source `getMonthNote(dateStr, rootNote = null)`.  In the branch for a
missing parent `setDate(1)` hands the time value of the first day of the month
to `utcDateTimeStr`, which is taken to format that instant. -/
def getMonthNote : Nat → Env → String → Option Nat → Store → Result Nat
  | 0, _, _, _, _ => .outOfFuel
  | fuel + 1, env, dateStr, rootArg, s0 =>
    let rootNote := (resolveRoot env rootArg s0).1
    let s := (resolveRoot env rootArg s0).2
    let monthStr := substr dateStr 0 7
    match findFirstNoteWithQuery s (.labelEq MONTH_LABEL monthStr)
        { ancestorNoteId := some rootNote } with
    | some monthNote => .ok monthNote s
    | none =>
      let pattern := orDefault (getOwnedLabelValue s rootNote "monthPattern")
        "\x7bmonthNumberPadded\x7d - \x7bmonth\x7d"
      match getParentNote fuel env "month" dateStr rootNote s with
      | .outOfFuel => .outOfFuel
      | .error e s1 => .error e s1
      | .ok none s1 =>
        match parseLocalDate dateStr with
        | .error e => .error e s1
        | .ok dateObj => getDayNote fuel env (utcDateTimeStr (dateObj.setDate 1)) (some rootNote) s1
      | .ok (some parentNote) s1 =>
        match getNoteTitle env pattern dateStr {} with
        | .error e => .error e s1
        | .ok noteTitle =>
          let created := createContainer env s1 rootNote parentNote noteTitle
            MONTH_LABEL monthStr "monthTemplate"
          .ok created.1 created.2

/-- Source `getDayNote(dateStr, rootNote = null)`.  The title is expanded
before the parent is resolved; a missing parent makes `createNote` read
`noteId` of `null`, a `TypeError`. -/
def getDayNote : Nat → Env → String → Option Nat → Store → Result Nat
  | 0, _, _, _, _ => .outOfFuel
  | fuel + 1, env, dateStr0, rootArg, s0 =>
    let rootNote := (resolveRoot env rootArg s0).1
    let s := (resolveRoot env rootArg s0).2
    let dateStr := substr (trim dateStr0) 0 10
    match findFirstNoteWithQuery s (.labelEq DATE_LABEL dateStr)
        { ancestorNoteId := some rootNote } with
    | some dateNote => .ok dateNote s
    | none =>
      let pattern := orDefault (getOwnedLabelValue s rootNote "datePattern")
        "\x7bdayInMonthPadded\x7d - \x7bweekDay\x7d"
      match getNoteTitle env pattern dateStr {} with
      | .error e => .error e s
      | .ok noteTitle =>
        match getParentNote fuel env "day" dateStr rootNote s with
        | .outOfFuel => .outOfFuel
        | .error e s1 => .error e s1
        | .ok none s1 => .error (.typeError "Cannot read properties of null") s1
        | .ok (some parentNote) s1 =>
          let created := createDayContainer env s1 rootNote parentNote noteTitle
            (substr dateStr 0 10)
          .ok created.1 created.2

/-- Source `getWeekNote(dateStr, options = {}, rootNote = null)`.  The test of
the found note's parents compares with the outer `yearStr`, the first four
characters of the trimmed date string: the `yearStr` of the week 0 branch is a
variable of that block only. -/
def getWeekNote : Nat → Env → String → Options → Option Nat → Store → Result Nat
  | 0, _, _, _, _, _ => .outOfFuel
  | fuel + 1, env, dateStr, options, rootArg, s0 =>
    let rootNote := (resolveRoot env rootArg s0).1
    let s := (resolveRoot env rootArg s0).2
    match parseLocalDate dateStr with
    | .error e => .error e s
    | .ok dateObj =>
      let startOfTheWeek := orDefault options.startOfTheWeek "monday"
      let yearStr := substr (trim dateStr) 0 4
      match weekStr env dateStr options with
      | .error e => .error e s
      | .ok weekStr =>
        match findFirstNoteWithQuery s (.labelEq WEEK_LABEL weekStr)
            { ancestorNoteId := some rootNote } with
        | some weekNote =>
          let yearNotes := getParentNotes s weekNote
          if arrayIsFalsy yearNotes then .error .weekNoteWithoutParents s
          else if yearNotes.any (fun yearNote =>
              getOwnedLabelValue s yearNote YEAR_LABEL == some yearStr) then
            .ok weekNote s
          else
            match getParentNote fuel env "week" dateStr rootNote s with
            | .outOfFuel => .outOfFuel
            | .error e s1 => .error e s1
            | .ok none s1 => .error (.noWeeklyParent dateStr) s1
            | .ok (some parentNote) s1 =>
              let cloned := cloneTo s1 weekNote parentNote
              if !cloned.1.success then .error (.cloneFailed dateStr cloned.1.message) cloned.2
              else .ok weekNote cloned.2
        | none =>
          let pattern := orDefault (getOwnedLabelValue s rootNote "weekPattern")
            "WW\x7bweekNumber\x7d"
          match getParentNote fuel env "week" dateStr rootNote s with
          | .outOfFuel => .outOfFuel
          | .error e s1 => .error e s1
          | .ok none s1 =>
            match getStartOfTheWeek dateObj startOfTheWeek with
            | .error e => .error e s1
            | .ok weekDateObj => getDayNote fuel env (utcDateTimeStr weekDateObj) (some rootNote) s1
          | .ok (some parentNote) s1 =>
            match getNoteTitle env pattern dateStr options with
            | .error e => .error e s1
            | .ok noteTitle =>
              let created := createContainer env s1 rootNote parentNote noteTitle
                WEEK_LABEL weekStr "weekTemplate"
              .ok created.1 created.2

end

/-- Source `getTodayNote(rootNote = null)`; `today` is the value of
`dateUtils.localNowDate()`. -/
def getTodayNote (fuel : Nat) (env : Env) (today : String) (rootArg : Option Nat)
    (s : Store) : Result Nat :=
  getDayNote fuel env today rootArg s

/-! ## A reference environment -/

/-- Position of a date in its week, 0 for the first day of the week. -/
def weekPosition (date : LocalDate) (startOfTheWeek : String) : Except Error Nat :=
  if startOfTheWeek = "monday" then .ok ((date.getDay + 6) % 7)
  else if startOfTheWeek = "sunday" then .ok date.getDay
  else .error (.startOfTheWeek startOfTheWeek)

/-- Modelled from the spec: `dateUtils.getWeek` is not part of `date_notes.js`;
the spec lists it as "compute week number for a start-of-week convention",
lets an unrecognized convention fail, gives week number 0 to a date that
"belongs to the final week of the prior Gregorian year" and week number 1 to a
late December date whose week "belongs to week 1 of the following year".  Week
1 is the first week with at least four days in the year. -/
def getWeek (date : LocalDate) (startOfTheWeek : String) : Except Error Nat :=
  match weekPosition date startOfTheWeek with
  | .error e => .error e
  | .ok pos =>
    let w := (date.dayOfYear + 9 - pos) / 7
    if w = 53 then
      match weekPosition { year := date.year, month := 12, day := 31 } startOfTheWeek with
      | .error e => .error e
      | .ok lastPos => if lastPos < 3 then .ok 1 else .ok 53
    else .ok w

/-- The environment of a caller outside any workspace and without a protected
session, with the week numbering above. -/
def plainEnv : Env :=
  { getWeek := getWeek, isProtectedSessionAvailable := false, workspaceNote := ROOT }


/-! ## The notes a resolution adds -/

/-- The `template` relation of a new container: present when the root has the
template relation of that granularity. -/
def templateAttributes (s : Store) (rootNote : Nat) (templateName : String) : List Attribute :=
  match getOwnedAttribute s rootNote .relation templateName with
  | some templateAttr => [{ type := .relation, name := "template", value := templateAttr.value }]
  | none => []

/-- The protected flag `createNote` gives a note below `parentNote`. -/
def protectedBelow (env : Env) (s : Store) (parentNote : Nat) : Bool :=
  ((getNote s parentNote).map (fun n => n.isProtected)).getD false
    && env.isProtectedSessionAvailable

/-- The year, month or week note as it stands in the store after its
transaction. -/
def containerNote (env : Env) (s : Store) (rootNote parentNote : Nat)
    (noteTitle labelName labelValue templateName : String) : Note :=
  { noteId := freshId s
    title := noteTitle
    isProtected := protectedBelow env s parentNote
    attributes := [{ type := .label, name := labelName, value := labelValue },
                   { type := .label, name := "sorted", value := "" }]
                  ++ templateAttributes s rootNote templateName
    parents := [parentNote] }

/-- The day note as it stands in the store after its transaction. -/
def dayNote (env : Env) (s : Store) (rootNote parentNote : Nat)
    (noteTitle labelValue : String) : Note :=
  { noteId := freshId s
    title := noteTitle
    isProtected := protectedBelow env s parentNote
    attributes := [{ type := .label, name := DATE_LABEL, value := labelValue }]
                  ++ templateAttributes s rootNote "dateTemplate"
    parents := [parentNote] }

/-- A chain of parent links from `a` up to `r`; the list holds the notes left
on the way, `r` at the end excluded. -/
inductive ParentPath (s : Store) : Nat → Nat → List Nat → Prop where
  | here (a : Nat) : ParentPath s a a []
  | step {a p r : Nat} {l : List Nat} :
      p ∈ getParentNotes s a → ParentPath s p r l → ParentPath s a r (a :: l)


/-! ## Sample stores -/

/-- A store with the root of the tree and a calendar root with default
settings (no calendarType: monthly). -/
def monthlyStore : Store :=
  [{ noteId := 0, title := "root", isProtected := false, attributes := [], parents := [] },
   { noteId := 1, title := "Calendar", isProtected := false,
     attributes := [{ type := .label, name := "calendarRoot", value := "" }], parents := [0] }]

/-- A store whose calendar root has calendarType weekly. -/
def weeklyStore : Store :=
  [{ noteId := 0, title := "root", isProtected := false, attributes := [], parents := [] },
   { noteId := 1, title := "Calendar", isProtected := false,
     attributes := [{ type := .label, name := "calendarRoot", value := "" },
                    { type := .label, name := "calendarType", value := "weekly" }],
     parents := [0] }]

/-- A store with the calendar root (calendarType weekly) and a second root,
`Journal`, with calendarType weekly, that a caller passes explicitly. -/
def journalStore : Store :=
  weeklyStore ++
  [{ noteId := 2, title := "Journal", isProtected := false,
     attributes := [{ type := .label, name := "calendarType", value := "weekly" }],
     parents := [0] }]

/-- The store after `getDayNote` ran once for 2024-03-15 with `Journal` as the
explicit root: the year and the week note stand below `Calendar`. -/
def journalRunStore : Store :=
  journalStore ++
  [{ noteId := 3, title := "2024", isProtected := false,
     attributes := [{ type := .label, name := "yearNote", value := "2024" },
                    { type := .label, name := "sorted", value := "" }],
     parents := [1] },
   { noteId := 4, title := "WW11", isProtected := false,
     attributes := [{ type := .label, name := "weekNote", value := "2024WW11" },
                    { type := .label, name := "sorted", value := "" }],
     parents := [3] },
   { noteId := 5, title := "15 - Friday", isProtected := false,
     attributes := [{ type := .label, name := "dateNote", value := "2024-03-15" }],
     parents := [4] }]

/-- A monthly calendar root whose datePattern names a token that does not
exist. -/
def bogusPatternStore : Store :=
  [{ noteId := 0, title := "root", isProtected := false, attributes := [], parents := [] },
   { noteId := 1, title := "Calendar", isProtected := false,
     attributes := [{ type := .label, name := "calendarRoot", value := "" },
                    { type := .label, name := "datePattern", value := "\x7bbogus\x7d" }],
     parents := [0] }]

/-- The monthly store after the year 2024 was resolved. -/
def yearStore : Store :=
  monthlyStore ++
  [{ noteId := 2, title := "2024", isProtected := false,
     attributes := [{ type := .label, name := "yearNote", value := "2024" },
                    { type := .label, name := "sorted", value := "" }],
     parents := [1] }]

/-- A weekly calendar with the year 2026 and its last week, week 53. -/
def lastWeekStore : Store :=
  weeklyStore ++
  [{ noteId := 2, title := "2026", isProtected := false,
     attributes := [{ type := .label, name := "yearNote", value := "2026" },
                    { type := .label, name := "sorted", value := "" }],
     parents := [1] },
   { noteId := 3, title := "WW53", isProtected := false,
     attributes := [{ type := .label, name := "weekNote", value := "2026WW53" },
                    { type := .label, name := "sorted", value := "" }],
     parents := [2] }]

/-- A tree whose root is itself the weekly calendar root and carries a weekNote
label: a week note without parents. -/
def rootWeekStore : Store :=
  [{ noteId := 0, title := "root", isProtected := false,
     attributes := [{ type := .label, name := "calendarType", value := "weekly" },
                    { type := .label, name := "weekNote", value := "2024WW11" }],
     parents := [] }]

/-- The monthly store after the day 2024-03-15 was resolved. -/
def dayStore : Store :=
  yearStore ++
  [{ noteId := 3, title := "03 - March", isProtected := false,
     attributes := [{ type := .label, name := "monthNote", value := "2024-03" },
                    { type := .label, name := "sorted", value := "" }],
     parents := [2] },
   { noteId := 4, title := "15 - Friday", isProtected := false,
     attributes := [{ type := .label, name := "dateNote", value := "2024-03-15" }],
     parents := [3] }]

/-- The weekly store after the day 2024-03-15 was resolved. -/
def weeklyDayStore : Store :=
  weeklyStore ++
  [{ noteId := 2, title := "2024", isProtected := false,
     attributes := [{ type := .label, name := "yearNote", value := "2024" },
                    { type := .label, name := "sorted", value := "" }],
     parents := [1] },
   { noteId := 3, title := "WW11", isProtected := false,
     attributes := [{ type := .label, name := "weekNote", value := "2024WW11" },
                    { type := .label, name := "sorted", value := "" }],
     parents := [2] },
   { noteId := 4, title := "15 - Friday", isProtected := false,
     attributes := [{ type := .label, name := "dateNote", value := "2024-03-15" }],
     parents := [3] }]

/-- A calendar root whose calendarType label has no value, the empty string. -/
def emptyTypeStore : Store :=
  [{ noteId := 0, title := "root", isProtected := false, attributes := [], parents := [] },
   { noteId := 1, title := "Calendar", isProtected := false,
     attributes := [{ type := .label, name := "calendarRoot", value := "" },
                    { type := .label, name := "calendarType", value := "" }],
     parents := [0] }]

/-- A calendar root whose calendarType is neither monthly nor weekly. -/
def yearlyStore : Store :=
  [{ noteId := 0, title := "root", isProtected := false, attributes := [], parents := [] },
   { noteId := 1, title := "Calendar", isProtected := false,
     attributes := [{ type := .label, name := "calendarRoot", value := "" },
                    { type := .label, name := "calendarType", value := "yearly" }],
     parents := [0] }]

/-- The default (monthly) calendar root and a second root, `Journal`, with
calendarType weekly: the two roots have different calendar types. -/
def mixedStore : Store :=
  monthlyStore ++
  [{ noteId := 2, title := "Journal", isProtected := false,
     attributes := [{ type := .label, name := "calendarType", value := "weekly" }],
     parents := [0] }]


/-! ## Notions used to state the properties -/

/-- The week label as the specification words it: the year of the date, `WW`
and the week number; for week number 0 the year before, `WW` and the week
number of its 31 December. -/
def specWeekLabel (yearText : String) (year : Int) (w lastWeek : Nat) : String :=
  if w ≠ 0 then yearText ++ "WW" ++ toString w
  else fourDigits (year - 1) ++ "WW" ++ toString lastWeek

/-- The store a resolution leaves, whether it returned or raised. -/
def Result.finalStore {α : Type} : Result α → Option Store
  | .ok _ s => some s
  | .error _ s => some s
  | .outOfFuel => none

/-- The owned labels of a note, in the order they were attached. -/
def Note.labels (n : Note) : List Attribute :=
  n.attributes.filter (fun a => a.type == .label)

/-- The `sorted` label. -/
def sortedLabel : Attribute :=
  { type := .label, name := "sorted", value := "" }

/-- The labels of a note as the resolvers attach them for the date string `d`:
a year note has yearNote with the first four characters of `d` and `sorted`, a
month note has monthNote with the first seven characters and `sorted`, a week
note has weekNote with the week label of `d` (for the start of the week of the
call, or for the default one when the week is resolved as a parent) and
`sorted`, a day note has dateNote with `d` and nothing else, a calendar root
has `calendarRoot` and `sorted`. -/
def IsTagged (env : Env) (d : String) (options : Options) (n : Note) : Prop :=
  n.labels = [{ type := .label, name := YEAR_LABEL, value := substr d 0 4 }, sortedLabel]
  ∨ n.labels = [{ type := .label, name := MONTH_LABEL, value := substr d 0 7 }, sortedLabel]
  ∨ (∃ weekLabel, (weekStr env d options = .ok weekLabel ∨ weekStr env d {} = .ok weekLabel)
      ∧ n.labels = [{ type := .label, name := WEEK_LABEL, value := weekLabel }, sortedLabel])
  ∨ n.labels = [{ type := .label, name := DATE_LABEL, value := d }]
  ∨ n.labels = [{ type := .label, name := CALENDAR_ROOT_LABEL, value := "" }, sortedLabel]

/-- Two stores hold the same notes with the same attributes; the parents may
differ. -/
def SameNotes (s old : Store) : Prop :=
  List.Forall₂ (fun a b => a.noteId = b.noteId ∧ a.attributes = b.attributes) s old

/-- The store `s2` is the store `s` with more notes, all of them tagged for the
date string `d`, and possibly more parent links. -/
def Grows (env : Env) (d : String) (options : Options) (s s2 : Store) : Prop :=
  ∃ old added, s2 = old ++ added ∧ SameNotes s old ∧ ∀ n ∈ added, IsTagged env d options n


/-! ## Tokens of a title pattern -/

/-- The ten tokens `getNoteTitle` knows. -/
def knownTokens : List String :=
  ["year", "month", "monthNumberPadded", "weekNumber", "weekNumberPadded", "weekDay",
   "weekDay3", "weekDay2", "dayInMonthPadded", "isoDate"]

/-- A brace-delimited token occurs in a pattern: somewhere the pattern reads an
opening brace, the name of the token, one or more word characters, and a
closing brace. -/
def HasToken (pattern : List Char) (token : String) : Prop :=
  ∃ pre post : List Char,
    pattern = pre ++ '{' :: (token.data ++ '}' :: post)
    ∧ token.data ≠ [] ∧ token.data.all isWordChar = true

/-- The message of the errors that `date_notes.js` raises itself; the messages
of the runtime and of the date utilities are not modelled. -/
def Error.message : Error → String
  | .calendarType => "#calendarType should be \"monthly\" or \"weekly\""
  | .unknownPattern token => "unknown pattern \x7b" ++ token ++ "\x7d"
  | .weekNoteWithoutParents => "Error Day notes structure, week note don\x27t have parents"
  | .noWeeklyParent dateStr => "Can\x27t find weekly parent note of date \"" ++ dateStr ++ "\""
  | .cloneFailed dateStr message =>
    "Failed to clone weekly note of date \"" ++ dateStr ++ "\": " ++ message
  | .startOfTheWeek value => "Unrecognized start of the week " ++ value
  | .invalidDate _ => ""
  | .typeError _ => ""

/-- The full English name of a month, by its number from 1 to 12. -/
def englishMonthName (month : Nat) : String :=
  match month with
  | 1 => "January"
  | 2 => "February"
  | 3 => "March"
  | 4 => "April"
  | 5 => "May"
  | 6 => "June"
  | 7 => "July"
  | 8 => "August"
  | 9 => "September"
  | 10 => "October"
  | 11 => "November"
  | 12 => "December"
  | _ => ""

/-- The ten decimal digits. -/
def digitChars : List Char :=
  ['0', '1', '2', '3', '4', '5', '6', '7', '8', '9']


/-! ## Parent chains

The search scope walks parent links with the number of notes as its bound.
The lemmas below show that the bound loses nothing: whatever is reached by
some number of links is reached within that bound. -/

theorem getNote_some_mem {s : Store} {a : Nat} {n : Note} (h : getNote s a = some n) :
    n ∈ s ∧ n.noteId = a := by
  unfold getNote at h
  have h1 := List.mem_of_find?_eq_some h
  have h2 := List.find?_some h
  exact ⟨h1, by simpa using h2⟩

theorem getNote_append_left {s : Store} {a : Nat} {n : Note} (t : Store)
    (h : getNote s a = some n) : getNote (s ++ t) a = some n := by
  unfold getNote at *
  simp [List.find?_append, h]

theorem getNote_append_none {s : Store} {a : Nat} (t : Store)
    (h : getNote s a = none) : getNote (s ++ t) a = getNote t a := by
  unfold getNote at *
  simp [List.find?_append, h]

theorem mem_ids_of_parent {s : Store} {a p : Nat} (h : p ∈ getParentNotes s a) :
    a ∈ s.map (fun n => n.noteId) := by
  unfold getParentNotes at h
  cases hn : getNote s a with
  | none => simp [hn] at h
  | some n =>
    have := getNote_some_mem hn
    exact List.mem_map.mpr ⟨n, this.1, this.2⟩

theorem reaches_succ {s : Store} {r : Nat} :
    ∀ (k : Nat) (a : Nat), reaches k s a r = true → reaches (k + 1) s a r = true := by
  intro k
  induction k with
  | zero =>
    intro a h
    simp [reaches] at h ⊢
    exact Or.inl h
  | succ k ih =>
    intro a h
    rw [reaches] at h ⊢
    simp only [Bool.or_eq_true, List.any_eq_true] at h ⊢
    rcases h with h | ⟨p, hp, hr⟩
    · exact Or.inl h
    · exact Or.inr ⟨p, hp, ih p hr⟩

theorem reaches_le {s : Store} {r a : Nat} {k m : Nat} (hkm : k ≤ m)
    (h : reaches k s a r = true) : reaches m s a r = true := by
  induction hkm with
  | refl => exact h
  | step _ ih => exact reaches_succ _ _ ih

theorem parentPath_mem_ids {s : Store} {a r : Nat} {l : List Nat}
    (h : ParentPath s a r l) : ∀ x ∈ l, x ∈ s.map (fun n => n.noteId) := by
  induction h with
  | here a => intro x hx; simp at hx
  | step hp _ ih =>
    intro x hx
    rcases List.mem_cons.mp hx with rfl | hx
    · exact mem_ids_of_parent hp
    · exact ih x hx

theorem parentPath_reaches {s : Store} {a r : Nat} {l : List Nat}
    (h : ParentPath s a r l) : reaches l.length s a r = true := by
  induction h with
  | here a => simp [DateNotes.reaches]
  | step hp _ ih =>
    rw [List.length_cons, DateNotes.reaches]
    simp only [Bool.or_eq_true, List.any_eq_true]
    exact Or.inr ⟨_, hp, ih⟩

theorem parentPath_cut {s : Store} {a r x : Nat} {l : List Nat}
    (h : ParentPath s a r l) (hx : x ∈ l) :
    ∃ l2, ParentPath s x r l2 ∧ l2 <:+ l := by
  induction h with
  | here a => simp at hx
  | @step a p r l hp hpath ih =>
    rcases List.mem_cons.mp hx with rfl | hx
    · exact ⟨x :: l, ParentPath.step hp hpath, List.suffix_refl _⟩
    · obtain ⟨l2, h2, hs⟩ := ih hx
      exact ⟨l2, h2, hs.trans (List.suffix_cons _ _)⟩

theorem exists_nodup_path {s : Store} {r : Nat} :
    ∀ (k : Nat) (a : Nat), reaches k s a r = true →
      ∃ l, ParentPath s a r l ∧ l.Nodup := by
  intro k
  induction k with
  | zero =>
    intro a h
    simp [reaches] at h
    subst h
    exact ⟨[], ParentPath.here _, List.nodup_nil⟩
  | succ k ih =>
    intro a h
    rw [reaches] at h
    simp only [Bool.or_eq_true, List.any_eq_true] at h
    rcases h with h | ⟨p, hp, hr⟩
    · simp at h
      subst h
      exact ⟨[], ParentPath.here _, List.nodup_nil⟩
    · obtain ⟨l, hl, hnd⟩ := ih p hr
      by_cases ha : a ∈ l
      · obtain ⟨l2, h2, hs⟩ := parentPath_cut hl ha
        exact ⟨l2, h2, hnd.sublist hs.sublist⟩
      · exact ⟨a :: l, ParentPath.step hp hl, List.nodup_cons.mpr ⟨ha, hnd⟩⟩

/-- The bound of `isInSubtree` is enough: what some number of parent links
reaches, the number of notes reaches. -/
theorem reaches_length {s : Store} {a r : Nat} {k : Nat} (h : reaches k s a r = true) :
    isInSubtree s a r = true := by
  obtain ⟨l, hl, hnd⟩ := exists_nodup_path k a h
  have hsub : l ⊆ s.map (fun n => n.noteId) := fun x hx => parentPath_mem_ids hl x hx
  have hlen : l.length ≤ s.length := by
    have := (List.subperm_of_subset hnd hsub).length_le
    simpa using this
  exact reaches_le hlen (parentPath_reaches hl)

theorem isInSubtree_iff {s : Store} {a r : Nat} :
    isInSubtree s a r = true ↔ ∃ k, reaches k s a r = true :=
  ⟨fun h => ⟨_, h⟩, fun ⟨_, h⟩ => reaches_length h⟩


/-! ## Fresh identifiers and the growth of the store -/

theorem any_congr_mem {α : Type} {l : List α} {f g : α → Bool} (h : ∀ x ∈ l, f x = g x) :
    l.any f = l.any g := by
  induction l with
  | nil => rfl
  | cons a t ih =>
    simp only [List.any_cons]
    rw [h a (List.mem_cons_self _ _), ih (fun x hx => h x (List.mem_cons_of_mem _ hx))]

theorem find_congr_mem {α : Type} {l : List α} {f g : α → Bool} (h : ∀ x ∈ l, f x = g x) :
    l.find? f = l.find? g := by
  induction l with
  | nil => rfl
  | cons a t ih =>
    simp only [List.find?_cons]
    rw [h a (List.mem_cons_self _ _), ih (fun x hx => h x (List.mem_cons_of_mem _ hx))]

theorem lt_freshId {s : Store} {n : Note} (h : n ∈ s) :
    n.noteId < freshId s ∧ ∀ p ∈ n.parents, p < freshId s := by
  unfold freshId
  induction s with
  | nil => simp at h
  | cons m t ih =>
    have hfold : ∀ (ps : List Nat) (p : Nat), p ∈ ps → p ≤ ps.foldr max 0 := by
      intro ps
      induction ps with
      | nil => intro p hp; simp at hp
      | cons q qs ihq =>
        intro p hp
        rcases List.mem_cons.mp hp with rfl | hp
        · simp [List.foldr]
        · have := ihq p hp
          simp only [List.foldr]
          omega
    rcases List.mem_cons.mp h with rfl | h
    · simp only [List.foldr]
      refine ⟨by omega, ?_⟩
      intro p hp
      have := hfold _ p hp
      omega
    · have := ih h
      simp only [List.foldr]
      refine ⟨by omega, ?_⟩
      intro p hp
      have := this.2 p hp
      omega

theorem getNote_freshId (s : Store) : getNote s (freshId s) = none := by
  cases h : getNote s (freshId s) with
  | none => rfl
  | some n =>
    have h1 := getNote_some_mem h
    have h2 := (lt_freshId h1.1).1
    omega

theorem getNote_of_ge {s : Store} {a : Nat} (h : freshId s ≤ a) : getNote s a = none := by
  cases hn : getNote s a with
  | none => rfl
  | some n =>
    have h1 := getNote_some_mem hn
    have h2 := (lt_freshId h1.1).1
    omega

theorem parent_lt_freshId {s : Store} {a p : Nat} (h : p ∈ getParentNotes s a) :
    p < freshId s := by
  unfold getParentNotes at h
  cases hn : getNote s a with
  | none => simp [hn] at h
  | some n =>
    simp only [hn] at h
    exact (lt_freshId (getNote_some_mem hn).1).2 p h

theorem getNote_append_old {s : Store} {a : Nat} (n : Note) (hn : n.noteId = freshId s)
    (ha : a < freshId s) : getNote (s ++ [n]) a = getNote s a := by
  cases h : getNote s a with
  | some m => exact getNote_append_left _ h
  | none =>
    rw [getNote_append_none _ h]
    unfold getNote
    have hne : (n.noteId == a) = false := by
      apply beq_false_of_ne
      omega
    simp [List.find?, hne]

theorem getNote_append_new {s : Store} (n : Note) (hn : n.noteId = freshId s) :
    getNote (s ++ [n]) n.noteId = some n := by
  have h : getNote s n.noteId = none := by rw [hn]; exact getNote_freshId s
  rw [getNote_append_none _ h]
  unfold getNote
  simp [List.find?]

theorem getNote_append_fresh {s : Store} (n : Note) (hn : n.noteId = freshId s) :
    getNote (s ++ [n]) (freshId s) = some n := by
  rw [← hn]
  exact getNote_append_new n hn

theorem getParentNotes_append_old {s : Store} {a : Nat} (n : Note)
    (hn : n.noteId = freshId s) (ha : a < freshId s) :
    getParentNotes (s ++ [n]) a = getParentNotes s a := by
  unfold getParentNotes
  rw [getNote_append_old n hn ha]

theorem reaches_append_old {s : Store} {r : Nat} (n : Note) (hn : n.noteId = freshId s) :
    ∀ (k : Nat) (a : Nat), a < freshId s →
      reaches k (s ++ [n]) a r = reaches k s a r := by
  intro k
  induction k with
  | zero => intro a _; simp [reaches]
  | succ k ih =>
    intro a ha
    rw [reaches, reaches, getParentNotes_append_old n hn ha]
    rw [any_congr_mem (fun p hp => ih p (parent_lt_freshId hp))]

/-- A new note leaves the subtree membership of the older notes as it was. -/
theorem isInSubtree_append_old {s : Store} {a r : Nat} (n : Note)
    (hn : n.noteId = freshId s) (ha : a < freshId s) :
    isInSubtree (s ++ [n]) a r = isInSubtree s a r := by
  apply Bool.eq_iff_iff.mpr
  constructor
  · intro h
    unfold isInSubtree at h
    rw [reaches_append_old n hn _ a ha] at h
    exact reaches_length h
  · intro h
    unfold isInSubtree at h ⊢
    rw [reaches_append_old n hn _ a ha]
    exact reaches_le (by simp) h

theorem reaches_self (k : Nat) (s : Store) (a : Nat) : reaches k s a a = true := by
  cases k <;> simp [reaches]

theorem isInSubtree_self (s : Store) (a : Nat) : isInSubtree s a a = true :=
  reaches_self _ _ _

theorem isInSubtree_of_parent {s : Store} {a p r : Nat} (hp : p ∈ getParentNotes s a)
    (h : isInSubtree s p r = true) : isInSubtree s a r = true := by
  apply reaches_length (k := s.length + 1)
  rw [reaches]
  simp only [Bool.or_eq_true, List.any_eq_true]
  exact Or.inr ⟨p, hp, h⟩

/-- A new note lies in the subtree of `r` when its parent, an older note, does. -/
theorem isInSubtree_append_new {s : Store} {p r : Nat} (n : Note)
    (hn : n.noteId = freshId s) (hpar : p ∈ n.parents) (hp : p < freshId s)
    (h : isInSubtree s p r = true) : isInSubtree (s ++ [n]) n.noteId r = true := by
  apply isInSubtree_of_parent (p := p)
  · unfold getParentNotes
    rw [getNote_append_new n hn]
    exact hpar
  · rw [isInSubtree_append_old n hn hp]
    exact h

/-- Searching the store after one note was added: the older notes answer as
before, the new note answers last. -/
theorem findFirst_append {s : Store} (n : Note) (hn : n.noteId = freshId s) (q : Query)
    (anc : Nat) :
    findFirstNoteWithQuery (s ++ [n]) q { ancestorNoteId := some anc } =
      match findFirstNoteWithQuery s q { ancestorNoteId := some anc } with
      | some x => some x
      | none =>
        if q.matches n && isInSubtree (s ++ [n]) n.noteId anc then some n.noteId else none := by
  unfold findFirstNoteWithQuery
  have hold : ∀ m ∈ s, (q.matches m && SearchContext.inScope { ancestorNoteId := some anc } (s ++ [n]) m)
      = (q.matches m && SearchContext.inScope { ancestorNoteId := some anc } s m) := by
    intro m hm
    simp only [SearchContext.inScope]
    rw [isInSubtree_append_old n hn (lt_freshId hm).1]
  rw [List.find?_append]
  rw [find_congr_mem hold]
  cases hf : s.find? (fun m => q.matches m && SearchContext.inScope { ancestorNoteId := some anc } s m) with
  | some x => simp
  | none =>
    simp only [Option.none_or, Option.map_none']
    by_cases hm : (q.matches n && isInSubtree (s ++ [n]) n.noteId anc) = true
    · simp [List.find?, SearchContext.inScope, hm]
    · simp [List.find?, SearchContext.inScope, hm]


/-! ## The creating transactions -/

theorem addAttribute_append_new {s : Store} (n : Note) (hn : n.noteId = freshId s)
    (a : Attribute) :
    addAttribute (s ++ [n]) n.noteId a = s ++ [{ n with attributes := n.attributes ++ [a] }] := by
  unfold addAttribute
  rw [List.map_append]
  congr 1
  · conv => rhs; rw [← List.map_id s]
    apply List.map_congr_left
    intro m hm
    have := (lt_freshId hm).1
    have hne : (m.noteId == n.noteId) = false := by
      apply beq_false_of_ne
      omega
    simp [hne]
  · simp

theorem getOwnedAttribute_append_labels {s : Store} (n : Note) (rootNote : Nat)
    (name : String) (hn : ∀ a ∈ n.attributes, a.type = .label) :
    getOwnedAttribute (s ++ [n]) rootNote .relation name = getOwnedAttribute s rootNote .relation name := by
  unfold getOwnedAttribute
  cases h : getNote s rootNote with
  | some m => rw [getNote_append_left _ h]
  | none =>
    rw [getNote_append_none _ h]
    unfold getNote
    by_cases hid : (n.noteId == rootNote) = true
    · simp only [List.find?, hid, Option.bind]
      unfold Note.getOwnedAttribute
      apply List.find?_eq_none.mpr
      intro a ha
      simp [hn a ha]
    · simp [List.find?, hid]

theorem createContainer_eq (env : Env) (s : Store) (rootNote parentNote : Nat)
    (noteTitle labelName labelValue templateName : String) :
    createContainer env s rootNote parentNote noteTitle labelName labelValue templateName =
      (freshId s,
        s ++ [containerNote env s rootNote parentNote noteTitle labelName labelValue
          templateName]) := by
  unfold createContainer createNote createNewNote createLabel createRelation
  simp only []
  rw [addAttribute_append_new _ rfl, addAttribute_append_new _ rfl]
  rw [getOwnedAttribute_append_labels _ _ _ (by simp)]
  unfold containerNote templateAttributes protectedBelow
  cases h : getOwnedAttribute s rootNote .relation templateName with
  | none => simp
  | some t =>
    simp only []
    rw [addAttribute_append_new _ rfl]
    simp

theorem createDayContainer_eq (env : Env) (s : Store) (rootNote parentNote : Nat)
    (noteTitle labelValue : String) :
    createDayContainer env s rootNote parentNote noteTitle labelValue =
      (freshId s, s ++ [dayNote env s rootNote parentNote noteTitle labelValue]) := by
  unfold createDayContainer createNote createNewNote createLabel createRelation
  simp only []
  rw [addAttribute_append_new _ rfl]
  rw [getOwnedAttribute_append_labels _ _ _ (by simp)]
  unfold dayNote templateAttributes protectedBelow
  cases h : getOwnedAttribute s rootNote .relation "dateTemplate" with
  | none => simp
  | some t =>
    simp only []
    rw [addAttribute_append_new _ rfl]
    simp

/-! ## Unfolding the resolvers -/

theorem parentLabel_cases (label : String) (pattern : List String)
    (h : pattern = ["year", "month", "day"] ∨ pattern = ["year", "week", "day"]) :
    parentLabelLoop label "root" pattern = "root" ∨ parentLabelLoop label "root" pattern = "year"
    ∨ parentLabelLoop label "root" pattern = "month" ∨ parentLabelLoop label "root" pattern = "week"
    ∨ parentLabelLoop label "root" pattern = "day" := by
  rcases h with rfl | rfl <;>
  · simp only [parentLabelLoop]
    split_ifs <;> simp

theorem getParentNote_year (fuel : Nat) (env : Env) (dateStr : String) (rootNote : Nat)
    (s : Store)
    (htype : orDefault (getOwnedLabelValue s rootNote "calendarType") "monthly" = "monthly"
      ∨ orDefault (getOwnedLabelValue s rootNote "calendarType") "monthly" = "weekly") :
    getParentNote (fuel + 1) env "year" dateStr rootNote s = .ok (some rootNote) s := by
  rw [getParentNote]
  rcases htype with h | h <;> simp [h, parentLabelLoop]


/-! ## Canonical date strings -/

theorem not_isSpace_of_isDigit {c : Char} (h : c.isDigit = true) : isSpace c = false := by
  have hall : ∀ w ∈ whiteSpace, w.isDigit = false := by decide
  cases hs : isSpace c with
  | false => rfl
  | true =>
    exfalso
    unfold isSpace at hs
    have hmem : c ∈ whiteSpace := by simpa using hs
    have := hall c hmem
    rw [h] at this
    cases this

theorem digitsValue_some_all {cs : List Char} {v : Nat} (h : digitsValue cs = some v) :
    cs.all Char.isDigit = true := by
  cases cs with
  | nil => rfl
  | cons c t =>
    unfold digitsValue at h
    by_cases hall : (c :: t).all Char.isDigit = true
    · exact hall
    · simp [hall] at h

/-- The shape of a canonical date string. -/
theorem canonical_shape {d : String} (hd : IsCanonicalDate d) :
    ∃ c0 c1 c2 c3 c5 c6 c8 c9 : Char,
      d.data = [c0, c1, c2, c3, '-', c5, c6, '-', c8, c9] ∧ c0.isDigit = true ∧ c9.isDigit = true := by
  obtain ⟨hlen, dt, hp⟩ := hd
  have htake : (substr d 0 10).data = d.data := by
    simp [substr, ← hlen]
  unfold parseLocalDate at hp
  rw [htake] at hp
  split at hp
  · rename_i y1 y2 y3 y4 m1 m2 d1 d2 heq
    split at hp
    · rename_i y m dd hy hm hdd
      have h1 := digitsValue_some_all hy
      have h2 := digitsValue_some_all hdd
      simp only [List.all_cons, List.all_nil, Bool.and_true, Bool.and_eq_true] at h1 h2
      exact ⟨y1, y2, y3, y4, m1, m2, d1, d2, heq, h1.1, h2.2⟩
    · cases hp
  · cases hp

theorem trim_canonical {d : String} (hd : IsCanonicalDate d) : trim d = d := by
  obtain ⟨c0, c1, c2, c3, c5, c6, c8, c9, hdata, h0, h9⟩ := canonical_shape hd
  have s0 := not_isSpace_of_isDigit h0
  have s9 := not_isSpace_of_isDigit h9
  unfold trim
  cases d with
  | mk data =>
    simp only at hdata
    subst hdata
    simp [List.dropWhile, s0, s9]

theorem substr_canonical {d : String} (hd : IsCanonicalDate d) : substr d 0 10 = d := by
  obtain ⟨hlen, _⟩ := hd
  cases d with
  | mk data =>
    simp only at hlen
    simp [substr, ← hlen]


/-! ## The resolvers under a monthly root -/

theorem getYearNote_hit (fuel : Nat) (env : Env) (dateStr : String) (rootNote : Nat)
    (s : Store) (y : Nat)
    (h : findFirstNoteWithQuery s (.labelEq YEAR_LABEL (substr (trim dateStr) 0 4))
      { ancestorNoteId := some rootNote } = some y) :
    getYearNote (fuel + 1) env dateStr (some rootNote) s = .ok y s := by
  rw [getYearNote]
  simp only [resolveRoot]
  rw [h]

theorem getYearNote_miss (fuel : Nat) (env : Env) (dateStr : String) (rootNote : Nat)
    (s : Store) (title : String)
    (htype : orDefault (getOwnedLabelValue s rootNote "calendarType") "monthly" = "monthly"
      ∨ orDefault (getOwnedLabelValue s rootNote "calendarType") "monthly" = "weekly")
    (h : findFirstNoteWithQuery s (.labelEq YEAR_LABEL (substr (trim dateStr) 0 4))
      { ancestorNoteId := some rootNote } = none)
    (ht : getNoteTitle env (orDefault (getOwnedLabelValue s rootNote "yearPattern")
      "\x7byear\x7d") dateStr {} = .ok title) :
    getYearNote (fuel + 2) env dateStr (some rootNote) s =
      .ok (freshId s) (s ++ [containerNote env s rootNote rootNote title YEAR_LABEL
        (substr (trim dateStr) 0 4) "yearTemplate"]) := by
  rw [getYearNote]
  simp only [resolveRoot]
  rw [h]
  simp only []
  rw [getParentNote_year fuel env dateStr rootNote s htype]
  simp only []
  rw [ht]
  simp only [createContainer_eq]

theorem getParentNote_monthly (fuel : Nat) (env : Env) (label dateStr : String)
    (rootNote : Nat) (s : Store)
    (htype : orDefault (getOwnedLabelValue s rootNote "calendarType") "monthly" = "monthly") :
    getParentNote (fuel + 1) env label dateStr rootNote s =
      if label = "year" then .ok (some rootNote) s
      else if label = "month" then
        match getYearNote fuel env dateStr (some rootNote) s with
        | .ok note s1 => .ok (some note) s1
        | .error e s1 => .error e s1
        | .outOfFuel => .outOfFuel
      else if label = "day" then
        match getMonthNote fuel env dateStr (some rootNote) s with
        | .ok note s1 => .ok (some note) s1
        | .error e s1 => .error e s1
        | .outOfFuel => .outOfFuel
      else
        match getDayNote fuel env dateStr (some rootNote) s with
        | .ok note s1 => .ok (some note) s1
        | .error e s1 => .error e s1
        | .outOfFuel => .outOfFuel := by
  rw [getParentNote]
  simp only [htype, parentLabelLoop]
  by_cases h1 : label = "year"
  · subst h1; simp
  · by_cases h2 : label = "month"
    · subst h2; simp
    · by_cases h3 : label = "day"
      · subst h3; simp
      · have e1 : ¬ ("year" = label) := fun h => h1 h.symm
        have e2 : ¬ ("month" = label) := fun h => h2 h.symm
        have e3 : ¬ ("day" = label) := fun h => h3 h.symm
        simp [h1, h2, h3, e1, e2, e3]

theorem monthly_of_absent {s : Store} {rootNote : Nat}
    (h : getOwnedLabelValue s rootNote "calendarType" = none
      ∨ getOwnedLabelValue s rootNote "calendarType" = some "monthly") :
    orDefault (getOwnedLabelValue s rootNote "calendarType") "monthly" = "monthly" := by
  rcases h with h | h <;> simp [h, orDefault]

theorem freshId_append_lt (s : Store) (n : Note) : n.noteId < freshId (s ++ [n]) :=
  (lt_freshId (s := s ++ [n]) (by simp)).1

theorem getMonthNote_miss_monthly (fuel : Nat) (env : Env) (dateStr : String) (rootNote : Nat)
    (s : Store) (ty tm : String)
    (htype : orDefault (getOwnedLabelValue s rootNote "calendarType") "monthly" = "monthly")
    (hy : findFirstNoteWithQuery s (.labelEq YEAR_LABEL (substr (trim dateStr) 0 4))
      { ancestorNoteId := some rootNote } = none)
    (hm : findFirstNoteWithQuery s (.labelEq MONTH_LABEL (substr dateStr 0 7))
      { ancestorNoteId := some rootNote } = none)
    (hty : getNoteTitle env (orDefault (getOwnedLabelValue s rootNote "yearPattern")
      "\x7byear\x7d") dateStr {} = .ok ty)
    (htm : getNoteTitle env (orDefault (getOwnedLabelValue s rootNote "monthPattern")
      "\x7bmonthNumberPadded\x7d - \x7bmonth\x7d") dateStr {} = .ok tm) :
    getMonthNote (fuel + 4) env dateStr (some rootNote) s =
      .ok (freshId (s ++ [containerNote env s rootNote rootNote ty YEAR_LABEL
            (substr (trim dateStr) 0 4) "yearTemplate"]))
        (s ++ [containerNote env s rootNote rootNote ty YEAR_LABEL
            (substr (trim dateStr) 0 4) "yearTemplate"]
          ++ [containerNote env (s ++ [containerNote env s rootNote rootNote ty YEAR_LABEL
            (substr (trim dateStr) 0 4) "yearTemplate"]) rootNote (freshId s) tm MONTH_LABEL
            (substr dateStr 0 7) "monthTemplate"]) := by
  rw [getMonthNote]
  simp only [resolveRoot]
  rw [hm]
  simp only []
  rw [getParentNote_monthly (fuel + 2) env "month" dateStr rootNote s htype]
  rw [getYearNote_miss fuel env dateStr rootNote s ty (Or.inl htype) hy hty]
  simp only [createContainer_eq, htm]
  simp


/-! ## `getParentNote` always names a parent -/

theorem pattern_cases (type : String) :
    (if type = "monthly" then ["year", "month", "day"] else ["year", "week", "day"])
        = ["year", "month", "day"]
      ∨ (if type = "monthly" then ["year", "month", "day"] else ["year", "week", "day"])
        = ["year", "week", "day"] := by
  split_ifs <;> simp

/-- The `return null` of `getParentNote` is never reached: the loop leaves one
of the five labels of the `switch`. -/
theorem getParentNote_ne_none (fuel : Nat) (env : Env) (label dateStr : String)
    (rootNote : Nat) (s s1 : Store) :
    getParentNote fuel env label dateStr rootNote s ≠ .ok none s1 := by
  intro h
  cases fuel with
  | zero => simp [getParentNote] at h
  | succ f =>
    rw [getParentNote] at h
    simp only [] at h
    by_cases h0 : orDefault (getOwnedLabelValue s rootNote "calendarType") "monthly" ≠ "monthly"
        ∧ orDefault (getOwnedLabelValue s rootNote "calendarType") "monthly" ≠ "weekly"
    · rw [if_pos h0] at h
      simp at h
    · rw [if_neg h0] at h
      have hcases := parentLabel_cases label _
        (pattern_cases (orDefault (getOwnedLabelValue s rootNote "calendarType") "monthly"))
      generalize parentLabelLoop label "root"
        (if orDefault (getOwnedLabelValue s rootNote "calendarType") "monthly" = "monthly"
          then ["year", "month", "day"] else ["year", "week", "day"]) = pl at h hcases
      rcases hcases with rfl | rfl | rfl | rfl | rfl
      · simp at h
      · simp only [show ¬ ("year" = "root") by decide, if_false, if_true] at h
        split at h <;> simp at h
      · simp only [show ¬ ("month" = "root") by decide, show ¬ ("month" = "year") by decide,
          if_false, if_true] at h
        split at h <;> simp at h
      · simp only [show ¬ ("week" = "root") by decide, show ¬ ("week" = "year") by decide,
          show ¬ ("week" = "month") by decide, if_false, if_true] at h
        split at h <;> simp at h
      · simp only [show ¬ ("day" = "root") by decide, show ¬ ("day" = "year") by decide,
          show ¬ ("day" = "month") by decide, show ¬ ("day" = "week") by decide,
          if_false, if_true] at h
        split at h <;> simp at h

theorem weekStr_ok_parse {env : Env} {dateStr : String} {options : Options} {label : String}
    (h : weekStr env dateStr options = .ok label) :
    ∃ dateObj, parseLocalDate dateStr = .ok dateObj := by
  unfold weekStr at h
  cases hp : parseLocalDate dateStr with
  | ok dateObj => exact ⟨dateObj, rfl⟩
  | error e => rw [hp] at h; simp at h


/-! ## The store only grows, by tagged notes -/

theorem isTagged_mono {env : Env} {d : String} {options : Options} {n : Note}
    (h : IsTagged env d {} n) : IsTagged env d options n := by
  unfold IsTagged at *
  rcases h with h | h | ⟨l, hl, h⟩ | h | h
  · exact Or.inl h
  · exact Or.inr (Or.inl h)
  · exact Or.inr (Or.inr (Or.inl ⟨l, Or.inr (by rcases hl with hl | hl <;> exact hl), h⟩))
  · exact Or.inr (Or.inr (Or.inr (Or.inl h)))
  · exact Or.inr (Or.inr (Or.inr (Or.inr h)))


theorem sameNotes_refl (s : Store) : SameNotes s s := by
  unfold SameNotes
  induction s with
  | nil => exact List.Forall₂.nil
  | cons a t ih => exact List.Forall₂.cons ⟨rfl, rfl⟩ ih

theorem sameNotes_trans {a b c : Store} (h1 : SameNotes a b) (h2 : SameNotes b c) :
    SameNotes a c := by
  unfold SameNotes at *
  induction h1 generalizing c with
  | nil => cases h2; exact List.Forall₂.nil
  | cons hab _ ih =>
    cases h2 with
    | cons hbc t2 => exact List.Forall₂.cons ⟨hab.1.trans hbc.1, hab.2.trans hbc.2⟩ (ih t2)

theorem sameNotes_getNote_ne_none {s old : Store} (h : SameNotes s old) {n : Note}
    (hn : n ∈ old) : getNote s n.noteId ≠ none := by
  unfold SameNotes at h
  induction h with
  | nil => simp at hn
  | @cons a b s1 old1 hab _ ih =>
    unfold getNote
    rcases List.mem_cons.mp hn with rfl | hn
    · simp [List.find?, hab.1]
    · have := ih hn
      unfold getNote at this
      rw [List.find?_cons]
      split
      · simp
      · exact this

theorem isTagged_congr {env : Env} {d : String} {options : Options} {a b : Note}
    (h : a.attributes = b.attributes) (ha : IsTagged env d options a) :
    IsTagged env d options b := by
  unfold IsTagged Note.labels at *
  rw [← h]
  exact ha

/-- Splitting a store that has the notes of `old ++ added`. -/
theorem sameNotes_split {old added c : Store} (h : SameNotes (old ++ added) c) :
    ∃ c1 c2, c = c1 ++ c2 ∧ SameNotes old c1 ∧ SameNotes added c2 := by
  unfold SameNotes at *
  induction old generalizing c with
  | nil => exact ⟨[], c, rfl, List.Forall₂.nil, h⟩
  | cons a t ih =>
    cases h with
    | cons hab hrest =>
      obtain ⟨c1, c2, rfl, h1, h2⟩ := ih hrest
      exact ⟨_ :: c1, c2, rfl, List.Forall₂.cons hab h1, h2⟩

theorem sameNotes_tagged {env : Env} {d : String} {options : Options} {a b : Store}
    (h : SameNotes a b) (ha : ∀ n ∈ a, IsTagged env d options n) :
    ∀ n ∈ b, IsTagged env d options n := by
  unfold SameNotes at h
  induction h with
  | nil => intro n hn; simp at hn
  | @cons x y s1 s2 hxy _ ih =>
    intro n hn
    rcases List.mem_cons.mp hn with rfl | hn
    · exact isTagged_congr hxy.2 (ha x (List.mem_cons_self _ _))
    · exact ih (fun m hm => ha m (List.mem_cons_of_mem _ hm)) n hn

theorem grows_refl {env : Env} {d : String} {options : Options} (s : Store) :
    Grows env d options s s :=
  ⟨s, [], by simp, sameNotes_refl s, by simp⟩

theorem grows_trans {env : Env} {d : String} {options : Options} {a b c : Store}
    (h1 : Grows env d options a b) (h2 : Grows env d options b c) : Grows env d options a c := by
  obtain ⟨old1, added1, rfl, hs1, ht1⟩ := h1
  obtain ⟨old2, added2, rfl, hs2, ht2⟩ := h2
  obtain ⟨c1, c2, rfl, hc1, hc2⟩ := sameNotes_split hs2
  refine ⟨c1, c2 ++ added2, by simp, sameNotes_trans hs1 hc1, ?_⟩
  intro n hn
  rcases List.mem_append.mp hn with hn | hn
  · exact sameNotes_tagged hc2 ht1 n hn
  · exact ht2 n hn

theorem grows_append {env : Env} {d : String} {options : Options} {s : Store} {n : Note}
    (h : IsTagged env d options n) : Grows env d options s (s ++ [n]) :=
  ⟨s, [n], rfl, sameNotes_refl s, by simpa using h⟩

theorem grows_new_tagged {env : Env} {d : String} {options : Options} {s s2 : Store}
    (h : Grows env d options s s2) {n : Note} (hn : n ∈ s2)
    (hnew : getNote s n.noteId = none) : IsTagged env d options n := by
  obtain ⟨old, added, rfl, hs, ht⟩ := h
  rcases List.mem_append.mp hn with hn | hn
  · exact absurd hnew (sameNotes_getNote_ne_none hs hn)
  · exact ht n hn

theorem sameNotes_map_parents (s : Store) (f : Note → List Nat) (p : Note → Bool) :
    SameNotes s (s.map (fun n => if p n then { n with parents := f n } else n)) := by
  unfold SameNotes
  induction s with
  | nil => exact List.Forall₂.nil
  | cons a t ih =>
    refine List.Forall₂.cons ?_ ih
    by_cases h : p a = true <;> simp [h]

theorem grows_cloneTo {env : Env} {d : String} {options : Options} (s : Store)
    (noteId parentNoteId : Nat) :
    Grows env d options s (cloneTo s noteId parentNoteId).2 := by
  unfold cloneTo
  split_ifs
  · exact grows_refl s
  · exact grows_refl s
  · exact grows_refl s
  · exact ⟨_, [], by simp, sameNotes_map_parents s (fun n => n.parents ++ [parentNoteId])
      (fun n => n.noteId == noteId), by simp⟩

theorem templateAttributes_labels (s : Store) (rootNote : Nat) (name : String) :
    (templateAttributes s rootNote name).filter (fun a => a.type == .label) = [] := by
  unfold templateAttributes
  split <;> simp

theorem containerNote_labels (env : Env) (s : Store) (rootNote parentNote : Nat)
    (noteTitle labelName labelValue templateName : String) :
    (containerNote env s rootNote parentNote noteTitle labelName labelValue templateName).labels
      = [{ type := .label, name := labelName, value := labelValue }, sortedLabel] := by
  unfold Note.labels containerNote
  simp only [List.filter_append, templateAttributes_labels]
  simp [sortedLabel]

theorem dayNote_labels (env : Env) (s : Store) (rootNote parentNote : Nat)
    (noteTitle labelValue : String) :
    (dayNote env s rootNote parentNote noteTitle labelValue).labels
      = [{ type := .label, name := DATE_LABEL, value := labelValue }] := by
  unfold Note.labels dayNote
  simp only [List.filter_append, templateAttributes_labels]
  simp

theorem grows_getRootCalendarNote {d : String} {options : Options} (env : Env) (s : Store) :
    Grows env d options s (getRootCalendarNote env s).2 := by
  unfold getRootCalendarNote
  simp only []
  split
  · exact grows_refl s
  · unfold createNewNote createLabel
    simp only []
    rw [addAttribute_append_new _ rfl, addAttribute_append_new _ rfl]
    apply grows_append
    unfold IsTagged Note.labels
    simp [sortedLabel]

theorem grows_resolveRoot {d : String} {options : Options} (env : Env)
    (rootArg : Option Nat) (s : Store) :
    Grows env d options s (resolveRoot env rootArg s).2 := by
  unfold resolveRoot
  cases rootArg with
  | some r => exact grows_refl s
  | none => exact grows_getRootCalendarNote env s

theorem grows_mono {env : Env} {d : String} {options : Options} {s s2 : Store}
    (h : Grows env d {} s s2) : Grows env d options s s2 := by
  obtain ⟨old, added, h1, h2, h3⟩ := h
  exact ⟨old, added, h1, h2, fun n hn => isTagged_mono (h3 n hn)⟩


theorem tagged_year (env : Env) (d : String) (options : Options) (s : Store) (r p : Nat)
    (t tn : String) :
    IsTagged env d options (containerNote env s r p t YEAR_LABEL (substr d 0 4) tn) :=
  Or.inl (containerNote_labels _ _ _ _ _ _ _ _)

theorem tagged_month (env : Env) (d : String) (options : Options) (s : Store) (r p : Nat)
    (t tn : String) :
    IsTagged env d options (containerNote env s r p t MONTH_LABEL (substr d 0 7) tn) :=
  Or.inr (Or.inl (containerNote_labels _ _ _ _ _ _ _ _))

theorem tagged_week (env : Env) (d : String) (options : Options) (s : Store) (r p : Nat)
    (t v tn : String) (hv : weekStr env d options = .ok v) :
    IsTagged env d options (containerNote env s r p t WEEK_LABEL v tn) :=
  Or.inr (Or.inr (Or.inl ⟨v, Or.inl hv, containerNote_labels _ _ _ _ _ _ _ _⟩))

theorem tagged_day (env : Env) (d : String) (options : Options) (s : Store) (r p : Nat)
    (t : String) :
    IsTagged env d options (dayNote env s r p t d) :=
  Or.inr (Or.inr (Or.inr (Or.inl (dayNote_labels _ _ _ _ _ _))))

theorem finalStore_ok {α : Type} {r : Result α} {v : α} {s : Store} (h : r = .ok v s) :
    r.finalStore = some s := by
  rw [h]; rfl

theorem finalStore_error {α : Type} {r : Result α} {e : Error} {s : Store}
    (h : r = .error e s) : r.finalStore = some s := by
  rw [h]; rfl

/-- Whatever a resolver returns or raises for a canonical date string, the
store it leaves is the store it started from with more notes, each tagged for
that date string as its granularity asks, and possibly more parent links. -/
theorem grows_all (env : Env) (d : String) (hd : IsCanonicalDate d) (fuel : Nat) :
    (∀ label root s s2,
      (getParentNote fuel env label d root s).finalStore = some s2 → Grows env d {} s s2)
    ∧ (∀ rootArg s s2,
      (getYearNote fuel env d rootArg s).finalStore = some s2 → Grows env d {} s s2)
    ∧ (∀ rootArg s s2,
      (getMonthNote fuel env d rootArg s).finalStore = some s2 → Grows env d {} s s2)
    ∧ (∀ rootArg s s2,
      (getDayNote fuel env d rootArg s).finalStore = some s2 → Grows env d {} s s2)
    ∧ (∀ options rootArg s s2,
      (getWeekNote fuel env d options rootArg s).finalStore = some s2
        → Grows env d options s s2) := by
  induction fuel with
  | zero =>
    refine ⟨?_, ?_, ?_, ?_, ?_⟩ <;> intros <;> simp_all [getParentNote, getYearNote,
      getMonthNote, getDayNote, getWeekNote, Result.finalStore]
  | succ f ih =>
    obtain ⟨ihP, ihY, ihM, ihD, ihW⟩ := ih
    refine ⟨?_, ?_, ?_, ?_, ?_⟩
    · -- getParentNote
      intro label root s s2 h
      rw [getParentNote] at h
      simp only [] at h
      generalize parentLabelLoop label "root"
        (if orDefault (getOwnedLabelValue s root "calendarType") "monthly" = "monthly"
          then ["year", "month", "day"] else ["year", "week", "day"]) = pl at h
      split_ifs at h
      · simp only [Result.finalStore, Option.some.injEq] at h
        subst h; exact grows_refl s
      · simp only [Result.finalStore, Option.some.injEq] at h
        subst h; exact grows_refl s
      · split at h
        · rename_i heq
          simp only [Result.finalStore, Option.some.injEq] at h
          subst h; exact ihY _ _ _ (finalStore_ok heq)
        · rename_i heq
          simp only [Result.finalStore, Option.some.injEq] at h
          subst h; exact ihY _ _ _ (finalStore_error heq)
        · simp [Result.finalStore] at h
      · split at h
        · rename_i heq
          simp only [Result.finalStore, Option.some.injEq] at h
          subst h; exact ihM _ _ _ (finalStore_ok heq)
        · rename_i heq
          simp only [Result.finalStore, Option.some.injEq] at h
          subst h; exact ihM _ _ _ (finalStore_error heq)
        · simp [Result.finalStore] at h
      · split at h
        · rename_i heq
          simp only [Result.finalStore, Option.some.injEq] at h
          subst h; exact ihW (optionsOfNote root) _ _ _ (finalStore_ok heq)
        · rename_i heq
          simp only [Result.finalStore, Option.some.injEq] at h
          subst h; exact ihW (optionsOfNote root) _ _ _ (finalStore_error heq)
        · simp [Result.finalStore] at h
      · split at h
        · rename_i heq
          simp only [Result.finalStore, Option.some.injEq] at h
          subst h; exact ihD _ _ _ (finalStore_ok heq)
        · rename_i heq
          simp only [Result.finalStore, Option.some.injEq] at h
          subst h; exact ihD _ _ _ (finalStore_error heq)
        · simp [Result.finalStore] at h
      · simp only [Result.finalStore, Option.some.injEq] at h
        subst h; exact grows_refl s
    · -- getYearNote
      intro rootArg s0 s2 h
      rw [getYearNote] at h
      simp only [trim_canonical hd] at h
      have hr : Grows env d {} s0 (resolveRoot env rootArg s0).2 :=
        grows_resolveRoot env rootArg s0
      generalize resolveRoot env rootArg s0 = rr at h hr
      split at h
      · simp only [Result.finalStore, Option.some.injEq] at h
        subst h; exact hr
      · split at h
        · simp [Result.finalStore] at h
        · rename_i heq
          simp only [Result.finalStore, Option.some.injEq] at h
          subst h; exact grows_trans hr (ihP _ _ _ _ (finalStore_error heq))
        · rename_i heq
          exact absurd heq (getParentNote_ne_none _ _ _ _ _ _ _)
        · rename_i heq
          have hg := grows_trans hr (ihP _ _ _ _ (finalStore_ok heq))
          split at h
          · simp only [Result.finalStore, Option.some.injEq] at h
            subst h; exact hg
          · simp only [createContainer_eq, Result.finalStore, Option.some.injEq] at h
            subst h; exact grows_trans hg (grows_append (tagged_year _ _ _ _ _ _ _ _))
    · -- getMonthNote
      intro rootArg s0 s2 h
      rw [getMonthNote] at h
      simp only [] at h
      have hr : Grows env d {} s0 (resolveRoot env rootArg s0).2 :=
        grows_resolveRoot env rootArg s0
      generalize resolveRoot env rootArg s0 = rr at h hr
      split at h
      · simp only [Result.finalStore, Option.some.injEq] at h
        subst h; exact hr
      · split at h
        · simp [Result.finalStore] at h
        · rename_i heq
          simp only [Result.finalStore, Option.some.injEq] at h
          subst h; exact grows_trans hr (ihP _ _ _ _ (finalStore_error heq))
        · rename_i heq
          exact absurd heq (getParentNote_ne_none _ _ _ _ _ _ _)
        · rename_i heq
          have hg := grows_trans hr (ihP _ _ _ _ (finalStore_ok heq))
          split at h
          · simp only [Result.finalStore, Option.some.injEq] at h
            subst h; exact hg
          · simp only [createContainer_eq, Result.finalStore, Option.some.injEq] at h
            subst h; exact grows_trans hg (grows_append (tagged_month _ _ _ _ _ _ _ _))
    · -- getDayNote
      intro rootArg s0 s2 h
      rw [getDayNote] at h
      simp only [trim_canonical hd, substr_canonical hd] at h
      have hr : Grows env d {} s0 (resolveRoot env rootArg s0).2 :=
        grows_resolveRoot env rootArg s0
      generalize resolveRoot env rootArg s0 = rr at h hr
      split at h
      · simp only [Result.finalStore, Option.some.injEq] at h
        subst h; exact hr
      · split at h
        · simp only [Result.finalStore, Option.some.injEq] at h
          subst h; exact hr
        · split at h
          · simp [Result.finalStore] at h
          · rename_i heq
            simp only [Result.finalStore, Option.some.injEq] at h
            subst h; exact grows_trans hr (ihP _ _ _ _ (finalStore_error heq))
          · rename_i heq
            exact absurd heq (getParentNote_ne_none _ _ _ _ _ _ _)
          · rename_i heq
            have hg := grows_trans hr (ihP _ _ _ _ (finalStore_ok heq))
            simp only [createDayContainer_eq, Result.finalStore, Option.some.injEq] at h
            subst h; exact grows_trans hg (grows_append (tagged_day _ _ _ _ _ _ _))
    · -- getWeekNote
      intro options rootArg s0 s2 h
      rw [getWeekNote] at h
      simp only [] at h
      have hr : Grows env d options s0 (resolveRoot env rootArg s0).2 :=
        grows_resolveRoot env rootArg s0
      generalize resolveRoot env rootArg s0 = rr at h hr
      split at h
      · simp only [Result.finalStore, Option.some.injEq] at h
        subst h; exact hr
      · split at h
        · simp only [Result.finalStore, Option.some.injEq] at h
          subst h; exact hr
        · rename_i hweek
          split at h
          · -- a week note was found
            split_ifs at h
            · simp only [Result.finalStore, Option.some.injEq] at h
              subst h; exact hr
            · simp only [Result.finalStore, Option.some.injEq] at h
              subst h; exact hr
            · split at h
              · simp [Result.finalStore] at h
              · rename_i heq
                simp only [Result.finalStore, Option.some.injEq] at h
                subst h
                exact grows_trans hr (grows_mono (ihP _ _ _ _ (finalStore_error heq)))
              · rename_i heq
                exact absurd heq (getParentNote_ne_none _ _ _ _ _ _ _)
              · rename_i heq
                have hg := grows_trans hr (grows_mono (ihP _ _ _ _ (finalStore_ok heq)))
                split_ifs at h <;>
                · simp only [Result.finalStore, Option.some.injEq] at h
                  subst h; exact grows_trans hg (grows_cloneTo _ _ _)
          · -- no week note was found
            split at h
            · simp [Result.finalStore] at h
            · rename_i heq
              simp only [Result.finalStore, Option.some.injEq] at h
              subst h
              exact grows_trans hr (grows_mono (ihP _ _ _ _ (finalStore_error heq)))
            · rename_i heq
              exact absurd heq (getParentNote_ne_none _ _ _ _ _ _ _)
            · rename_i heq
              have hg := grows_trans hr (grows_mono (ihP _ _ _ _ (finalStore_ok heq)))
              split at h
              · simp only [Result.finalStore, Option.some.injEq] at h
                subst h; exact hg
              · simp only [createContainer_eq, Result.finalStore, Option.some.injEq] at h
                subst h
                exact grows_trans hg (grows_append (tagged_week _ _ _ _ _ _ _ _ _ hweek))


/-! ## Scanning a pattern -/

theorem isWordChar_open : isWordChar '{' = false := by decide

theorem isWordChar_close : isWordChar '}' = false := by decide

/-- What `readToken` reads is followed by a closing brace. -/
theorem readToken_some {cs : List Char} {token : String} (h : readToken cs = some token) :
    cs = token.data ++ '}' :: cs.drop (token.data.length + 1)
    ∧ token.data ≠ [] ∧ token.data.all isWordChar = true := by
  unfold readToken at h
  simp only [] at h
  split_ifs at h with hw
  split at h
  · rename_i rest heq
    simp only [Option.some.injEq] at h
    subst h
    simp only []
    have htd := List.takeWhile_append_dropWhile isWordChar cs
    have hdrop : cs.drop (cs.takeWhile isWordChar).length = cs.dropWhile isWordChar := by
      have hl := List.drop_left (cs.takeWhile isWordChar) (cs.dropWhile isWordChar)
      rw [htd] at hl
      exact hl
    refine ⟨?_, ?_, ?_⟩
    · have h1 : cs = cs.takeWhile isWordChar ++ cs.drop (cs.takeWhile isWordChar).length := by
        rw [hdrop]; exact htd.symm
      rw [heq] at h1
      have h2 : cs.drop ((cs.takeWhile isWordChar).length + 1) = rest := by
        rw [← List.drop_drop, heq]
        simp
      rw [h2]
      exact h1
    · intro hnil
      apply hw
      simp [hnil]
    · rw [List.all_eq_true]
      intro x hx
      exact List.mem_takeWhile_imp hx
  · cases h

theorem takeWhile_word_append (tok post : List Char) (htok : tok.all isWordChar = true) :
    (tok ++ '}' :: post).takeWhile isWordChar = tok := by
  induction tok with
  | nil => simp [List.takeWhile, isWordChar_close]
  | cons c t ih =>
    simp only [List.all_cons, Bool.and_eq_true] at htok
    simp [List.takeWhile, htok.1, ih htok.2]

/-- A word followed by a closing brace is read as a token. -/
theorem readToken_word (tok post : List Char) (hne : tok ≠ [])
    (htok : tok.all isWordChar = true) :
    readToken (tok ++ '}' :: post) = some ⟨tok⟩ := by
  unfold readToken
  simp only [takeWhile_word_append tok post htok]
  have : tok.isEmpty = false := by
    cases tok with
    | nil => exact absurd rfl hne
    | cons _ _ => rfl
  simp [this]

/-- The characters of a token are passed over. -/
theorem replaceTokens_skip (f : String → Except Error String) (xs rest : List Char) :
    replaceTokens f xs.length (xs ++ rest) = replaceTokens f 0 rest := by
  induction xs with
  | nil => simp
  | cons c t ih =>
    cases hr : t ++ rest with
    | nil =>
      have : rest = [] := by
        cases t <;> simp_all
      have ht : t = [] := by
        cases t <;> simp_all
      subst this ht
      simp [replaceTokens]
    | cons a b =>
      rw [List.cons_append, List.length_cons, replaceTokens, ← ih]

/-- Replacement at a token: the token is expanded, the scan goes on behind
its closing brace. -/
theorem replaceTokens_token (f : String → Except Error String) (tok post : List Char)
    (hne : tok ≠ []) (htok : tok.all isWordChar = true) :
    replaceTokens f 0 ('{' :: (tok ++ '}' :: post)) =
      match f ⟨tok⟩ with
      | .error e => .error e
      | .ok r =>
        match replaceTokens f 0 post with
        | .error e => .error e
        | .ok rest => .ok (r.data ++ rest) := by
  rw [replaceTokens]
  simp only [beq_self_eq_true, if_true, readToken_word tok post hne htok]
  have hskip : replaceTokens f (tok.length + 1) (tok ++ '}' :: post) = replaceTokens f 0 post := by
    have := replaceTokens_skip f (tok ++ ['}']) post
    simpa using this
  simp only [hskip]

/-- Replacement at a character that opens no token: the character stays. -/
theorem replaceTokens_plain (f : String → Except Error String) (c : Char) (cs : List Char)
    (h : c ≠ '{' ∨ readToken cs = none) :
    replaceTokens f 0 (c :: cs) =
      match replaceTokens f 0 cs with
      | .error e => .error e
      | .ok rest => .ok (c :: rest) := by
  rw [replaceTokens]
  by_cases hc : (c == '{') = true
  · have hr : readToken cs = none := by
      rcases h with h | h
      · simp at hc; exact absurd hc h
      · exact h
    simp [hc, hr]
  · simp [hc]


theorem word_before_brace (p tok X rest : List Char)
    (h : p ++ '{' :: X = tok ++ '}' :: rest) (htok : tok.all isWordChar = true) :
    tok.length + 1 ≤ p.length := by
  induction p generalizing tok with
  | nil =>
    cases tok with
    | nil => simp at h
    | cons d t =>
      simp only [List.nil_append, List.cons_append, List.cons.injEq] at h
      simp only [List.all_cons, Bool.and_eq_true] at htok
      rw [← h.1, isWordChar_open] at htok
      simp at htok
  | cons c p1 ih =>
    cases tok with
    | nil => simp
    | cons d t =>
      simp only [List.cons_append, List.cons.injEq] at h
      simp only [List.all_cons, Bool.and_eq_true] at htok
      have := ih t h.2 htok.2
      simp only [List.length_cons]
      omega

/-- A token that fails to expand makes the whole replacement fail, whatever
stands before it. -/
theorem replaceTokens_fails (f : String → Except Error String) (X : List Char) (e0 : Error)
    (hR : replaceTokens f 0 ('{' :: X) = .error e0) :
    ∀ (pre : List Char) (skip : Nat), skip ≤ pre.length →
      ∃ e, replaceTokens f skip (pre ++ '{' :: X) = .error e := by
  intro pre
  induction pre with
  | nil =>
    intro skip hskip
    have : skip = 0 := by simpa using hskip
    subst this
    exact ⟨e0, hR⟩
  | cons c p ih =>
    intro skip hskip
    cases skip with
    | succ k =>
      rw [List.cons_append, replaceTokens]
      exact ih k (by simpa using hskip)
    | zero =>
      rw [List.cons_append, replaceTokens]
      obtain ⟨e1, he1⟩ := ih 0 (Nat.zero_le _)
      by_cases hc : (c == '{') = true
      · simp only [hc, if_true]
        cases hr : readToken (p ++ '{' :: X) with
        | none => simp [he1]
        | some token =>
          simp only []
          cases hf : f token with
          | error e => exact ⟨e, rfl⟩
          | ok r =>
            simp only []
            have hs := readToken_some hr
            have hlen := word_before_brace p token.data X _ hs.1 hs.2.2
            obtain ⟨e2, he2⟩ := ih (token.data.length + 1) hlen
            exact ⟨e2, by rw [he2]⟩
      · simp only [hc, Bool.false_eq_true, if_false, he1]
        exact ⟨e1, rfl⟩

theorem hasToken_cons {cs : List Char} {tok : String} (c : Char) (h : HasToken cs tok) :
    HasToken (c :: cs) tok := by
  obtain ⟨pre, post, h1, h2, h3⟩ := h
  exact ⟨c :: pre, post, by rw [h1]; rfl, h2, h3⟩

/-- An error of the replacement is the error of one of the tokens of the
pattern. -/
theorem replaceTokens_error (f : String → Except Error String)
    (hf : ∀ tok e, f tok = .error e → e = .unknownPattern tok ∧ tok ∉ knownTokens) :
    ∀ (cs : List Char) (skip : Nat) (e : Error), replaceTokens f skip cs = .error e →
      ∃ tok, e = .unknownPattern tok ∧ tok ∉ knownTokens ∧ HasToken cs tok := by
  intro cs
  induction cs with
  | nil => intro skip e h; cases skip <;> simp [replaceTokens] at h
  | cons c p ih =>
    intro skip e h
    cases skip with
    | succ k =>
      rw [replaceTokens] at h
      obtain ⟨tok, h1, h2, h3⟩ := ih k e h
      exact ⟨tok, h1, h2, hasToken_cons c h3⟩
    | zero =>
      rw [replaceTokens] at h
      by_cases hc : (c == '{') = true
      · simp only [hc, if_true] at h
        cases hr : readToken p with
        | none =>
          rw [hr] at h
          simp only [] at h
          cases hrest : replaceTokens f 0 p with
          | error e1 =>
            rw [hrest] at h
            simp only [Except.error.injEq] at h
            subst h
            obtain ⟨tok, h1, h2, h3⟩ := ih 0 _ hrest
            exact ⟨tok, h1, h2, hasToken_cons c h3⟩
          | ok r => rw [hrest] at h; simp at h
        | some token =>
          rw [hr] at h
          simp only [] at h
          have hs := readToken_some hr
          have hcc : c = '{' := by simpa using hc
          cases hft : f token with
          | error e1 =>
            rw [hft] at h
            simp only [Except.error.injEq] at h
            subst h
            have := hf token _ hft
            refine ⟨token, this.1, this.2, [], p.drop (token.data.length + 1), ?_, hs.2.1, hs.2.2⟩
            rw [hcc, List.nil_append]
            exact congrArg _ hs.1
          | ok r =>
            rw [hft] at h
            simp only [] at h
            cases hrest : replaceTokens f (token.data.length + 1) p with
            | error e1 =>
              rw [hrest] at h
              simp only [Except.error.injEq] at h
              subst h
              obtain ⟨tok, h1, h2, h3⟩ := ih _ _ hrest
              exact ⟨tok, h1, h2, hasToken_cons c h3⟩
            | ok rest => rw [hrest] at h; simp at h
      · simp only [hc, Bool.false_eq_true, if_false] at h
        cases hrest : replaceTokens f 0 p with
        | error e1 =>
          rw [hrest] at h
          simp only [Except.error.injEq] at h
          subst h
          obtain ⟨tok, h1, h2, h3⟩ := ih 0 _ hrest
          exact ⟨tok, h1, h2, hasToken_cons c h3⟩
        | ok r => rw [hrest] at h; simp at h

/-- A pattern without a token is left as it is. -/
theorem replaceTokens_no_token (f : String → Except Error String) :
    ∀ (cs : List Char), (∀ tok, ¬ HasToken cs tok) → replaceTokens f 0 cs = .ok cs := by
  intro cs
  induction cs with
  | nil => intro _; simp [replaceTokens]
  | cons c p ih =>
    intro hno
    have hp : ∀ tok, ¬ HasToken p tok := fun tok h => hno tok (hasToken_cons c h)
    have hplain : c ≠ '{' ∨ readToken p = none := by
      by_cases hc : c = '{'
      · right
        cases hr : readToken p with
        | none => rfl
        | some token =>
          exfalso
          have hs := readToken_some hr
          apply hno token
          refine ⟨[], p.drop (token.data.length + 1), ?_, hs.2.1, hs.2.2⟩
          rw [hc, List.nil_append]
          exact congrArg _ hs.1
      · exact Or.inl hc
    rw [replaceTokens_plain f c p hplain, ih hp]

/-! ## Expanding one token -/

theorem not_known {token : String} (h : token ∉ knownTokens) :
    token ≠ "year" ∧ token ≠ "month" ∧ token ≠ "monthNumberPadded" ∧ token ≠ "weekNumber"
    ∧ token ≠ "weekNumberPadded" ∧ token ≠ "weekDay" ∧ token ≠ "weekDay3"
    ∧ token ≠ "weekDay2" ∧ token ≠ "dayInMonthPadded" ∧ token ≠ "isoDate" := by
  refine ⟨?_, ?_, ?_, ?_, ?_, ?_, ?_, ?_, ?_, ?_⟩ <;>
  · intro e
    apply h
    rw [e]
    decide

theorem known_of_not {token : String}
    (h : token ≠ "year" ∧ token ≠ "month" ∧ token ≠ "monthNumberPadded" ∧ token ≠ "weekNumber"
    ∧ token ≠ "weekNumberPadded" ∧ token ≠ "weekDay" ∧ token ≠ "weekDay3"
    ∧ token ≠ "weekDay2" ∧ token ≠ "dayInMonthPadded" ∧ token ≠ "isoDate") :
    token ∉ knownTokens := by
  obtain ⟨h1, h2, h3, h4, h5, h6, h7, h8, h9, h10⟩ := h
  intro hmem
  unfold knownTokens at hmem
  simp only [List.mem_cons, List.mem_singleton, List.mem_nil_iff, or_false] at hmem
  rcases hmem with e | e | e | e | e | e | e | e | e | e
  · exact h1 e
  · exact h2 e
  · exact h3 e
  · exact h4 e
  · exact h5 e
  · exact h6 e
  · exact h7 e
  · exact h8 e
  · exact h9 e
  · exact h10 e

theorem expandToken_unknown (env : Env) (dateStr : String) (dateObj : LocalDate)
    (weekDay startOfTheWeek token : String) (h : token ∉ knownTokens) :
    expandToken env dateStr dateObj weekDay startOfTheWeek token = .error (.unknownPattern token) := by
  obtain ⟨h1, h2, h3, h4, h5, h6, h7, h8, h9, h10⟩ := not_known h
  unfold expandToken
  rw [if_neg h1, if_neg h2, if_neg h3, if_neg h4, if_neg h5, if_neg h6, if_neg h7, if_neg h8,
    if_neg h9, if_neg h10]

theorem expandToken_error (env : Env) (dateStr : String) (dateObj : LocalDate)
    (weekDay startOfTheWeek : String) (w : Nat)
    (hw : env.getWeek dateObj startOfTheWeek = .ok w) (token : String) (e : Error)
    (h : expandToken env dateStr dateObj weekDay startOfTheWeek token = .error e) :
    e = .unknownPattern token ∧ token ∉ knownTokens := by
  unfold expandToken at h
  by_cases h1 : token = "year"
  · rw [if_pos h1] at h; cases h
  rw [if_neg h1] at h
  by_cases h2 : token = "month"
  · rw [if_pos h2] at h; cases h
  rw [if_neg h2] at h
  by_cases h3 : token = "monthNumberPadded"
  · rw [if_pos h3] at h; cases h
  rw [if_neg h3] at h
  by_cases h4 : token = "weekNumber"
  · rw [if_pos h4, hw] at h; cases h
  rw [if_neg h4] at h
  by_cases h5 : token = "weekNumberPadded"
  · rw [if_pos h5, hw] at h
    simp only [] at h
    by_cases h9 : w ≤ 9
    · rw [if_pos h9] at h; cases h
    · rw [if_neg h9] at h; cases h
  rw [if_neg h5] at h
  by_cases h6 : token = "weekDay"
  · rw [if_pos h6] at h; cases h
  rw [if_neg h6] at h
  by_cases h7 : token = "weekDay3"
  · rw [if_pos h7] at h; cases h
  rw [if_neg h7] at h
  by_cases h8 : token = "weekDay2"
  · rw [if_pos h8] at h; cases h
  rw [if_neg h8] at h
  by_cases h9 : token = "dayInMonthPadded"
  · rw [if_pos h9] at h; cases h
  rw [if_neg h9] at h
  by_cases h10 : token = "isoDate"
  · rw [if_pos h10] at h; cases h
  rw [if_neg h10] at h
  cases h
  exact ⟨rfl, known_of_not ⟨h1, h2, h3, h4, h5, h6, h7, h8, h9, h10⟩⟩


/-! ## Digits of a canonical date -/

theorem isDigit_mem {c : Char} (h : c.isDigit = true) : c ∈ digitChars := by
  have h1 : 48 ≤ c.toNat ∧ c.toNat ≤ 57 := by
    unfold Char.isDigit at h
    simp only [Bool.and_eq_true, decide_eq_true_eq, ge_iff_le] at h
    exact ⟨h.1, h.2⟩
  have h2 : c = Char.ofNat c.toNat := (Char.ofNat_toNat c).symm
  obtain ⟨ha, hb⟩ := h1
  generalize c.toNat = n at h2 ha hb
  subst h2
  interval_cases n <;> decide

theorem twoDigits_table :
    ∀ a ∈ digitChars, ∀ b ∈ digitChars,
      digitsValue [a, b] = some (10 * (a.toNat - 48) + (b.toNat - 48))
      ∧ (⟨[a, b]⟩ : String) = twoDigits (10 * (a.toNat - 48) + (b.toNat - 48)) := by
  decide

/-- Two digits of a date string are the two-digit form of their value. -/
theorem twoDigits_of_digitsValue {a b : Char} {m : Nat} (h : digitsValue [a, b] = some m) :
    (⟨[a, b]⟩ : String) = twoDigits m := by
  have hall := digitsValue_some_all h
  simp only [List.all_cons, List.all_nil, Bool.and_true, Bool.and_eq_true] at hall
  have ht := twoDigits_table a (isDigit_mem hall.1) b (isDigit_mem hall.2)
  rw [ht.1] at h
  simp only [Option.some.injEq] at h
  rw [← h]
  exact ht.2

/-- The month of a canonical date string: characters 5 and 6 are the two-digit
form of the parsed month, a number from 1 to 12. -/
theorem canonical_month {d : String} {dateObj : LocalDate} (hd : IsCanonicalDate d)
    (hp : parseLocalDate d = .ok dateObj) :
    substr d 5 2 = twoDigits dateObj.month ∧ 1 ≤ dateObj.month ∧ dateObj.month ≤ 12 := by
  obtain ⟨hlen, _⟩ := hd
  have htake : (substr d 0 10).data = d.data := by
    simp [substr, ← hlen]
  unfold parseLocalDate at hp
  rw [htake] at hp
  split at hp
  · rename_i y1 y2 y3 y4 m1 m2 d1 d2 heq
    split at hp
    · rename_i y m dd hy hm hdd
      split_ifs at hp with hrange
      simp only [Except.ok.injEq] at hp
      subst hp
      simp only []
      refine ⟨?_, hrange.1, hrange.2.1⟩
      rw [← twoDigits_of_digitsValue hm]
      simp [substr, heq]
    · cases hp
  · cases hp

theorem monthName_eq (m : Nat) (h1 : 1 ≤ m) (h2 : m ≤ 12) :
    MONTHS.getD (m - 1) "undefined" = englishMonthName m := by
  interval_cases m <;> rfl

theorem getNoteTitle_eq (env : Env) (pattern dateStr : String) (options : Options)
    (dateObj : LocalDate) (hp : parseLocalDate dateStr = .ok dateObj) :
    getNoteTitle env pattern dateStr options =
      match replaceTokens (expandToken env dateStr dateObj (DAYS.getD dateObj.getDay "undefined")
          (orDefault options.startOfTheWeek "monday")) 0 pattern.data with
      | .error e => .error e
      | .ok title => .ok ⟨title⟩ := by
  unfold getNoteTitle
  rw [hp]

/-- A pattern with an unknown token never expands, whatever the date string
and the week numbering. -/
theorem getNoteTitle_fails (env : Env) (pattern dateStr : String) (options : Options)
    (token : String) (htok : HasToken pattern.data token) (hunknown : token ∉ knownTokens) :
    ∃ e, getNoteTitle env pattern dateStr options = .error e := by
  cases hp : parseLocalDate dateStr with
  | error e => exact ⟨e, by unfold getNoteTitle; rw [hp]⟩
  | ok dateObj =>
    obtain ⟨pre, post, hsplit, hne, hword⟩ := htok
    have htokErr : replaceTokens (expandToken env dateStr dateObj
        (DAYS.getD dateObj.getDay "undefined") (orDefault options.startOfTheWeek "monday")) 0
        ('{' :: (token.data ++ '}' :: post)) = .error (.unknownPattern token) := by
      rw [replaceTokens_token _ _ _ hne hword]
      have : (⟨token.data⟩ : String) = token := rfl
      rw [this, expandToken_unknown _ _ _ _ _ _ hunknown]
    obtain ⟨e, he⟩ := replaceTokens_fails _ _ _ htokErr pre 0 (Nat.zero_le _)
    rw [← hsplit] at he
    exact ⟨e, by rw [getNoteTitle_eq _ _ _ _ _ hp, he]⟩


/-! ## Enough fuel

Each resolver returns or raises once its fuel covers the longest chain of
calls; the chains are followed from the year upwards. -/

theorem lift_ne_outOfFuel {r : Result Nat} (h : r ≠ .outOfFuel) :
    (match r with
      | .ok note s1 => Result.ok (some note) s1
      | .error e s1 => Result.error e s1
      | .outOfFuel => (Result.outOfFuel : Result (Option Nat))) ≠ .outOfFuel := by
  cases r with
  | ok n s => simp
  | error e s => simp
  | outOfFuel => exact absurd rfl h

theorem type_cases (t : String) :
    t = "monthly" ∨ t = "weekly" ∨ (t ≠ "monthly" ∧ t ≠ "weekly") := by
  by_cases h1 : t = "monthly"
  · exact Or.inl h1
  · by_cases h2 : t = "weekly"
    · exact Or.inr (Or.inl h2)
    · exact Or.inr (Or.inr ⟨h1, h2⟩)

theorem getParentNote_invalid (fuel : Nat) (env : Env) (label dateStr : String)
    (rootNote : Nat) (s : Store)
    (h : orDefault (getOwnedLabelValue s rootNote "calendarType") "monthly" ≠ "monthly"
      ∧ orDefault (getOwnedLabelValue s rootNote "calendarType") "monthly" ≠ "weekly") :
    getParentNote (fuel + 1) env label dateStr rootNote s = .error .calendarType s := by
  rw [getParentNote]
  simp only []
  rw [if_pos h]

theorem getParentNote_weekly (fuel : Nat) (env : Env) (label dateStr : String)
    (rootNote : Nat) (s : Store)
    (htype : orDefault (getOwnedLabelValue s rootNote "calendarType") "monthly" = "weekly") :
    getParentNote (fuel + 1) env label dateStr rootNote s =
      if label = "year" then .ok (some rootNote) s
      else if label = "week" then
        match getYearNote fuel env dateStr (some rootNote) s with
        | .ok note s1 => .ok (some note) s1
        | .error e s1 => .error e s1
        | .outOfFuel => .outOfFuel
      else if label = "day" then
        match getWeekNote fuel env dateStr (optionsOfNote rootNote) none s with
        | .ok note s1 => .ok (some note) s1
        | .error e s1 => .error e s1
        | .outOfFuel => .outOfFuel
      else
        match getDayNote fuel env dateStr (some rootNote) s with
        | .ok note s1 => .ok (some note) s1
        | .error e s1 => .error e s1
        | .outOfFuel => .outOfFuel := by
  rw [getParentNote]
  simp only [htype, parentLabelLoop]
  by_cases h1 : label = "year"
  · subst h1; simp
  · by_cases h2 : label = "week"
    · subst h2; simp
    · by_cases h3 : label = "day"
      · subst h3; simp
      · have e1 : ¬ ("year" = label) := fun h => h1 h.symm
        have e2 : ¬ ("week" = label) := fun h => h2 h.symm
        have e3 : ¬ ("day" = label) := fun h => h3 h.symm
        simp [h1, h2, h3, e1, e2, e3]

theorem getYearNote_of_parent (fuel : Nat) (env : Env) (d : String) (rootArg : Option Nat)
    (s : Store)
    (h : getParentNote fuel env "year" d (resolveRoot env rootArg s).1
      (resolveRoot env rootArg s).2 ≠ .outOfFuel) :
    getYearNote (fuel + 1) env d rootArg s ≠ .outOfFuel := by
  rw [getYearNote]
  simp only []
  split
  · simp
  · split
    · rename_i heq; exact absurd heq h
    · simp
    · split <;> simp
    · split <;> simp

theorem getMonthNote_of_parent (fuel : Nat) (env : Env) (d : String) (rootArg : Option Nat)
    (s : Store)
    (h : getParentNote fuel env "month" d (resolveRoot env rootArg s).1
      (resolveRoot env rootArg s).2 ≠ .outOfFuel) :
    getMonthNote (fuel + 1) env d rootArg s ≠ .outOfFuel := by
  rw [getMonthNote]
  simp only []
  split
  · simp
  · split
    · rename_i heq; exact absurd heq h
    · simp
    · rename_i heq
      exact absurd heq (getParentNote_ne_none _ _ _ _ _ _ _)
    · split <;> simp

theorem getDayNote_of_parent (fuel : Nat) (env : Env) (d : String) (rootArg : Option Nat)
    (s : Store)
    (h : getParentNote fuel env "day" (substr (trim d) 0 10) (resolveRoot env rootArg s).1
      (resolveRoot env rootArg s).2 ≠ .outOfFuel) :
    getDayNote (fuel + 1) env d rootArg s ≠ .outOfFuel := by
  rw [getDayNote]
  simp only []
  split
  · simp
  · split
    · simp
    · split
      · rename_i heq; exact absurd heq h
      · simp
      · simp
      · simp

theorem getWeekNote_of_parent (fuel : Nat) (env : Env) (d : String) (options : Options)
    (rootArg : Option Nat) (s : Store)
    (h : getParentNote fuel env "week" d (resolveRoot env rootArg s).1
      (resolveRoot env rootArg s).2 ≠ .outOfFuel) :
    getWeekNote (fuel + 1) env d options rootArg s ≠ .outOfFuel := by
  rw [getWeekNote]
  simp only []
  split
  · simp
  · split
    · simp
    · split
      · split_ifs
        · simp
        · simp
        · split
          · rename_i heq; exact absurd heq h
          · simp
          · simp
          · split_ifs <;> simp
      · split
        · rename_i heq; exact absurd heq h
        · simp
        · rename_i heq
          exact absurd heq (getParentNote_ne_none _ _ _ _ _ _ _)
        · split <;> simp

theorem getParentNote_year_ne (fuel : Nat) (env : Env) (d : String) (r : Nat) (s : Store) :
    getParentNote (fuel + 1) env "year" d r s ≠ .outOfFuel := by
  rcases type_cases (orDefault (getOwnedLabelValue s r "calendarType") "monthly") with h | h | h
  · rw [getParentNote_year fuel env d r s (Or.inl h)]; simp
  · rw [getParentNote_year fuel env d r s (Or.inr h)]; simp
  · rw [getParentNote_invalid fuel env "year" d r s h]; simp

theorem getYearNote_ne (fuel : Nat) (env : Env) (d : String) (rootArg : Option Nat)
    (s : Store) : getYearNote (fuel + 2) env d rootArg s ≠ .outOfFuel :=
  getYearNote_of_parent _ _ _ _ _ (getParentNote_year_ne _ _ _ _ _)

theorem getParentNote_week_ne (fuel : Nat) (env : Env) (d : String) (r : Nat) (s : Store) :
    getParentNote (fuel + 7) env "week" d r s ≠ .outOfFuel := by
  rcases type_cases (orDefault (getOwnedLabelValue s r "calendarType") "monthly") with h | h | h
  · -- monthly: the loop ends on `day`, the day resolves month and year
    rw [getParentNote_monthly (fuel + 6) env "week" d r s h]
    rw [if_neg (by decide), if_neg (by decide), if_neg (by decide)]
    apply lift_ne_outOfFuel
    apply getDayNote_of_parent
    simp only [resolveRoot]
    rw [getParentNote_monthly (fuel + 4) env "day" _ r s h]
    rw [if_neg (by decide), if_neg (by decide), if_pos rfl]
    apply lift_ne_outOfFuel
    apply getMonthNote_of_parent
    simp only [resolveRoot]
    rw [getParentNote_monthly (fuel + 2) env "month" _ r s h]
    rw [if_neg (by decide), if_pos rfl]
    exact lift_ne_outOfFuel (getYearNote_ne _ _ _ _ _)
  · rw [getParentNote_weekly (fuel + 6) env "week" d r s h]
    rw [if_neg (by decide), if_pos rfl]
    exact lift_ne_outOfFuel (getYearNote_ne (fuel + 4) _ _ _ _)
  · rw [getParentNote_invalid (fuel + 6) env "week" d r s h]; simp

theorem getWeekNote_ne (fuel : Nat) (env : Env) (d : String) (options : Options)
    (rootArg : Option Nat) (s : Store) :
    getWeekNote (fuel + 8) env d options rootArg s ≠ .outOfFuel :=
  getWeekNote_of_parent _ _ _ _ _ _ (getParentNote_week_ne _ _ _ _ _)

theorem getParentNote_day_ne (fuel : Nat) (env : Env) (d : String) (r : Nat) (s : Store) :
    getParentNote (fuel + 9) env "day" d r s ≠ .outOfFuel := by
  rcases type_cases (orDefault (getOwnedLabelValue s r "calendarType") "monthly") with h | h | h
  · rw [getParentNote_monthly (fuel + 8) env "day" d r s h]
    rw [if_neg (by decide), if_neg (by decide), if_pos rfl]
    apply lift_ne_outOfFuel
    apply getMonthNote_of_parent
    simp only [resolveRoot]
    rw [getParentNote_monthly (fuel + 6) env "month" _ r s h]
    rw [if_neg (by decide), if_pos rfl]
    exact lift_ne_outOfFuel (getYearNote_ne (fuel + 4) _ _ _ _)
  · rw [getParentNote_weekly (fuel + 8) env "day" d r s h]
    rw [if_neg (by decide), if_neg (by decide), if_pos rfl]
    exact lift_ne_outOfFuel (getWeekNote_ne fuel _ _ _ _ _)
  · rw [getParentNote_invalid (fuel + 8) env "day" d r s h]; simp

theorem getDayNote_ne (fuel : Nat) (env : Env) (d : String) (rootArg : Option Nat)
    (s : Store) : getDayNote (fuel + 10) env d rootArg s ≠ .outOfFuel :=
  getDayNote_of_parent _ _ _ _ _ (getParentNote_day_ne _ _ _ _ _)

theorem getParentNote_month_ne (fuel : Nat) (env : Env) (d : String) (r : Nat) (s : Store) :
    getParentNote (fuel + 11) env "month" d r s ≠ .outOfFuel := by
  rcases type_cases (orDefault (getOwnedLabelValue s r "calendarType") "monthly") with h | h | h
  · rw [getParentNote_monthly (fuel + 10) env "month" d r s h]
    rw [if_neg (by decide), if_pos rfl]
    exact lift_ne_outOfFuel (getYearNote_ne (fuel + 8) _ _ _ _)
  · rw [getParentNote_weekly (fuel + 10) env "month" d r s h]
    rw [if_neg (by decide), if_neg (by decide), if_neg (by decide)]
    exact lift_ne_outOfFuel (getDayNote_ne fuel _ _ _ _)
  · rw [getParentNote_invalid (fuel + 10) env "month" d r s h]; simp

theorem getMonthNote_ne (fuel : Nat) (env : Env) (d : String) (rootArg : Option Nat)
    (s : Store) : getMonthNote (fuel + 12) env d rootArg s ≠ .outOfFuel :=
  getMonthNote_of_parent _ _ _ _ _ (getParentNote_month_ne _ _ _ _ _)


/-! ## The note a resolver creates and returns -/

theorem findFirst_mem {s : Store} {q : Query} {ctx : SearchContext} {n : Nat}
    (h : findFirstNoteWithQuery s q ctx = some n) :
    ∃ m ∈ s, m.noteId = n ∧ q.matches m = true := by
  unfold findFirstNoteWithQuery at h
  cases hf : s.find? (fun n => q.matches n && ctx.inScope s n) with
  | none => rw [hf] at h; simp at h
  | some m =>
    rw [hf] at h
    simp only [Option.map_some', Option.some.injEq] at h
    have hp := List.find?_some hf
    simp only [Bool.and_eq_true] at hp
    exact ⟨m, List.mem_of_find?_eq_some hf, h, hp.1⟩

theorem mem_getNote_ne_none {s : Store} {m : Note} (h : m ∈ s) :
    getNote s m.noteId ≠ none :=
  sameNotes_getNote_ne_none (sameNotes_refl s) h

/-- A note found under a granularity label in the store that `resolveRoot`
leaves is a note of the store before: a calendar root created on the way has
the labels `calendarRoot` and `sorted` only. -/
theorem resolveRoot_found_old (env : Env) (rootArg : Option Nat) (s : Store)
    (name value : String) (ctx : SearchContext) (n : Nat)
    (h1 : name ≠ CALENDAR_ROOT_LABEL) (h2 : name ≠ "sorted")
    (h : findFirstNoteWithQuery (resolveRoot env rootArg s).2 (.labelEq name value) ctx
      = some n) :
    getNote s n ≠ none := by
  obtain ⟨m, hm, hid, hq⟩ := findFirst_mem h
  subst hid
  unfold resolveRoot at hm
  cases rootArg with
  | some r => exact mem_getNote_ne_none hm
  | none =>
    simp only [] at hm
    unfold getRootCalendarNote at hm
    simp only [] at hm
    split at hm
    · exact mem_getNote_ne_none hm
    · unfold createNewNote createLabel at hm
      simp only [] at hm
      rw [addAttribute_append_new _ rfl, addAttribute_append_new _ rfl] at hm
      rcases List.mem_append.mp hm with hm | hm
      · exact mem_getNote_ne_none hm
      · simp only [List.mem_singleton] at hm
        subst hm
        simp [Query.matches, h1.symm, h2.symm] at hq

/-- The note that `getYearNote` creates and returns for a canonical date string
has exactly the labels yearNote, with the first four characters, and `sorted`. -/
theorem getYearNote_created_labels (fuel : Nat) (env : Env) (d : String)
    (hd : IsCanonicalDate d) (rootArg : Option Nat) (s : Store) (n : Nat) (s2 : Store)
    (note : Note) (h : getYearNote fuel env d rootArg s = .ok n s2)
    (hnew : getNote s n = none) (hn : getNote s2 n = some note) :
    note.labels = [{ type := .label, name := YEAR_LABEL, value := substr d 0 4 }, sortedLabel] := by
  cases fuel with
  | zero => simp [getYearNote] at h
  | succ f =>
    rw [getYearNote] at h
    simp only [trim_canonical hd] at h
    split at h
    · rename_i hfind
      simp only [Result.ok.injEq] at h
      rw [h.1] at hfind
      exact absurd hnew (resolveRoot_found_old _ _ _ _ _ _ _ (by decide) (by decide) hfind)
    · split at h
      · simp at h
      · simp at h
      · rename_i heq
        exact absurd heq (getParentNote_ne_none _ _ _ _ _ _ _)
      · split at h
        · simp at h
        · simp only [createContainer_eq, Result.ok.injEq] at h
          obtain ⟨rfl, rfl⟩ := h
          rw [getNote_append_fresh _ rfl] at hn
          simp only [Option.some.injEq] at hn
          subst hn
          exact containerNote_labels _ _ _ _ _ _ _ _

/-- The note that `getMonthNote` creates and returns for a canonical date
string has exactly the labels monthNote, with the first seven characters, and
`sorted`. -/
theorem getMonthNote_created_labels (fuel : Nat) (env : Env) (d : String)
    (_hd : IsCanonicalDate d) (rootArg : Option Nat) (s : Store) (n : Nat) (s2 : Store)
    (note : Note) (h : getMonthNote fuel env d rootArg s = .ok n s2)
    (hnew : getNote s n = none) (hn : getNote s2 n = some note) :
    note.labels
      = [{ type := .label, name := MONTH_LABEL, value := substr d 0 7 }, sortedLabel] := by
  cases fuel with
  | zero => simp [getMonthNote] at h
  | succ f =>
    rw [getMonthNote] at h
    simp only [] at h
    split at h
    · rename_i hfind
      simp only [Result.ok.injEq] at h
      rw [h.1] at hfind
      exact absurd hnew (resolveRoot_found_old _ _ _ _ _ _ _ (by decide) (by decide) hfind)
    · split at h
      · simp at h
      · simp at h
      · rename_i heq
        exact absurd heq (getParentNote_ne_none _ _ _ _ _ _ _)
      · split at h
        · simp at h
        · simp only [createContainer_eq, Result.ok.injEq] at h
          obtain ⟨rfl, rfl⟩ := h
          rw [getNote_append_fresh _ rfl] at hn
          simp only [Option.some.injEq] at hn
          subst hn
          exact containerNote_labels _ _ _ _ _ _ _ _

/-- The note that `getDayNote` creates and returns for a canonical date string
has exactly one label, dateNote with the date string. -/
theorem getDayNote_created_labels (fuel : Nat) (env : Env) (d : String)
    (hd : IsCanonicalDate d) (rootArg : Option Nat) (s : Store) (n : Nat) (s2 : Store)
    (note : Note) (h : getDayNote fuel env d rootArg s = .ok n s2)
    (hnew : getNote s n = none) (hn : getNote s2 n = some note) :
    note.labels = [{ type := .label, name := DATE_LABEL, value := d }] := by
  cases fuel with
  | zero => simp [getDayNote] at h
  | succ f =>
    rw [getDayNote] at h
    simp only [trim_canonical hd, substr_canonical hd] at h
    split at h
    · rename_i hfind
      simp only [Result.ok.injEq] at h
      rw [h.1] at hfind
      exact absurd hnew (resolveRoot_found_old _ _ _ _ _ _ _ (by decide) (by decide) hfind)
    · split at h
      · simp at h
      · split at h
        · simp at h
        · simp at h
        · simp at h
        · simp only [createDayContainer_eq, Result.ok.injEq] at h
          obtain ⟨rfl, rfl⟩ := h
          rw [getNote_append_fresh _ rfl] at hn
          simp only [Option.some.injEq] at hn
          subst hn
          exact dayNote_labels _ _ _ _ _ _

/-- The note that `getWeekNote` creates and returns for a canonical date string
has exactly the labels weekNote, with the week label of the date string for the
start of the week of the call, and `sorted`. -/
theorem getWeekNote_created_labels (fuel : Nat) (env : Env) (d : String)
    (_hd : IsCanonicalDate d) (options : Options) (rootArg : Option Nat) (s : Store) (n : Nat)
    (s2 : Store) (note : Note) (h : getWeekNote fuel env d options rootArg s = .ok n s2)
    (hnew : getNote s n = none) (hn : getNote s2 n = some note) :
    ∃ weekLabel, weekStr env d options = .ok weekLabel
      ∧ note.labels
        = [{ type := .label, name := WEEK_LABEL, value := weekLabel }, sortedLabel] := by
  cases fuel with
  | zero => simp [getWeekNote] at h
  | succ f =>
    rw [getWeekNote] at h
    simp only [] at h
    split at h
    · simp at h
    · split at h
      · simp at h
      · rename_i weekLabel hweek
        refine ⟨weekLabel, hweek, ?_⟩
        split at h
        · rename_i weekNote hfind
          have hold := resolveRoot_found_old _ _ _ _ _ _ _ (by decide) (by decide) hfind
          split_ifs at h
          · simp only [Result.ok.injEq] at h
            rw [h.1] at hold
            exact absurd hnew hold
          · split at h
            · simp at h
            · simp at h
            · simp at h
            · split_ifs at h
              simp only [Result.ok.injEq] at h
              rw [h.1] at hold
              exact absurd hnew hold
        · split at h
          · simp at h
          · simp at h
          · rename_i heq
            exact absurd heq (getParentNote_ne_none _ _ _ _ _ _ _)
          · split at h
            · simp at h
            · simp only [createContainer_eq, Result.ok.injEq] at h
              obtain ⟨rfl, rfl⟩ := h
              rw [getNote_append_fresh _ rfl] at hn
              simp only [Option.some.injEq] at hn
              subst hn
              exact containerNote_labels _ _ _ _ _ _ _ _


/-- C1 (amended): under a root whose calendarType is absent or monthly and
whose year, month and date title patterns expand without error, for a canonical
date string with no year, month or day container below the root, `getDayNote`
returns a newly created note labelled dateNote with the ten characters of the
date, whose parent is a new note labelled monthNote with the first seven
characters, whose parent is a new note labelled yearNote with the first four
characters, whose parent is the root; the three notes enter the store in the
order year, month, day. -/
theorem getDayNote_creates_chain (env : Env) (fuel : Nat) (s : Store) (root : Nat) (d : String)
    (hfuel : 6 ≤ fuel)
    (htype : getOwnedLabelValue s root "calendarType" = none
      ∨ getOwnedLabelValue s root "calendarType" = some "monthly")
    (hd : IsCanonicalDate d)
    (hyear : findFirstNoteWithQuery s (.labelEq YEAR_LABEL (substr d 0 4))
      { ancestorNoteId := some root } = none)
    (hmonth : findFirstNoteWithQuery s (.labelEq MONTH_LABEL (substr d 0 7))
      { ancestorNoteId := some root } = none)
    (hday : findFirstNoteWithQuery s (.labelEq DATE_LABEL (substr d 0 10))
      { ancestorNoteId := some root } = none)
    (hty : ∃ t, getNoteTitle env (orDefault (getOwnedLabelValue s root "yearPattern")
      "\x7byear\x7d") d {} = .ok t)
    (htm : ∃ t, getNoteTitle env (orDefault (getOwnedLabelValue s root "monthPattern")
      "\x7bmonthNumberPadded\x7d - \x7bmonth\x7d") d {} = .ok t)
    (htd : ∃ t, getNoteTitle env (orDefault (getOwnedLabelValue s root "datePattern")
      "\x7bdayInMonthPadded\x7d - \x7bweekDay\x7d") d {} = .ok t) :
    ∃ yearNote monthNote dateNote : Note,
      getDayNote fuel env d (some root) s
        = .ok dateNote.noteId (s ++ [yearNote, monthNote, dateNote])
      ∧ getNote s yearNote.noteId = none ∧ getNote s monthNote.noteId = none
      ∧ getNote s dateNote.noteId = none
      ∧ yearNote.noteId < monthNote.noteId ∧ monthNote.noteId < dateNote.noteId
      ∧ yearNote.parents = [root]
      ∧ { type := .label, name := YEAR_LABEL, value := substr d 0 4 } ∈ yearNote.attributes
      ∧ monthNote.parents = [yearNote.noteId]
      ∧ { type := .label, name := MONTH_LABEL, value := substr d 0 7 } ∈ monthNote.attributes
      ∧ dateNote.parents = [monthNote.noteId]
      ∧ { type := .label, name := DATE_LABEL, value := substr d 0 10 } ∈ dateNote.attributes := by
  obtain ⟨ty, hty⟩ := hty
  obtain ⟨tm, htm⟩ := htm
  obtain ⟨td, htd⟩ := htd
  obtain ⟨f, rfl⟩ : ∃ f, fuel = f + 6 := ⟨fuel - 6, by omega⟩
  have hmonthly := monthly_of_absent htype
  have htrim := trim_canonical hd
  have hsub := substr_canonical hd
  have hyear1 : findFirstNoteWithQuery s (.labelEq YEAR_LABEL (substr (trim d) 0 4))
      { ancestorNoteId := some root } = none := by rw [htrim]; exact hyear
  have hM := getMonthNote_miss_monthly f env d root s ty tm hmonthly hyear1 hmonth hty htm
  rw [htrim] at hM
  refine ⟨containerNote env s root root ty YEAR_LABEL (substr d 0 4) "yearTemplate",
    containerNote env (s ++ [containerNote env s root root ty YEAR_LABEL (substr d 0 4)
      "yearTemplate"]) root (freshId s) tm MONTH_LABEL (substr d 0 7) "monthTemplate",
    dayNote env (s ++ [containerNote env s root root ty YEAR_LABEL (substr d 0 4)
      "yearTemplate"] ++ [containerNote env (s ++ [containerNote env s root root ty YEAR_LABEL
      (substr d 0 4) "yearTemplate"]) root (freshId s) tm MONTH_LABEL (substr d 0 7)
      "monthTemplate"]) root (freshId (s ++ [containerNote env s root root ty YEAR_LABEL
      (substr d 0 4) "yearTemplate"])) td (substr d 0 10), ?_, ?_⟩
  · rw [getDayNote]
    simp only [resolveRoot]
    rw [htrim, hsub, hsub]
    rw [hsub] at hday
    rw [hday]
    simp only []
    rw [htd]
    simp only []
    rw [getParentNote_monthly (f + 4) env "day" d root s hmonthly]
    rw [hM]
    simp [createDayContainer_eq, dayNote]
  · have h1 := freshId_append_lt s (containerNote env s root root ty YEAR_LABEL (substr d 0 4)
      "yearTemplate")
    have h2 := freshId_append_lt (s ++ [containerNote env s root root ty YEAR_LABEL
      (substr d 0 4) "yearTemplate"]) (containerNote env (s ++ [containerNote env s root root
      ty YEAR_LABEL (substr d 0 4) "yearTemplate"]) root (freshId s) tm MONTH_LABEL
      (substr d 0 7) "monthTemplate")
    simp only [containerNote, dayNote] at h1 h2 ⊢
    refine ⟨getNote_freshId s, getNote_of_ge (by omega), getNote_of_ge (by omega), h1, h2,
      ?_, ?_, ?_, ?_, ?_, ?_⟩ <;> simp

/-- C4: two date strings of the same year (equal first four characters after
trimming) resolve to the same year container: when `getYearNote` returns a
note for the first, `getYearNote` for the second, under the same root and on
the store the first call left, returns the same note and changes nothing. -/
theorem getYearNote_same_year (env : Env) (fuel1 fuel2 : Nat) (s s1 : Store) (root y : Nat)
    (d1 d2 : String)
    (hsame : substr (trim d1) 0 4 = substr (trim d2) 0 4)
    (hfirst : getYearNote fuel1 env d1 (some root) s = .ok y s1)
    (hfuel : 0 < fuel2) :
    getYearNote fuel2 env d2 (some root) s1 = .ok y s1 := by
  obtain ⟨f2, rfl⟩ : ∃ f, fuel2 = f + 1 := ⟨fuel2 - 1, by omega⟩
  apply getYearNote_hit
  rw [← hsame]
  cases fuel1 with
  | zero => simp [getYearNote] at hfirst
  | succ f1 =>
    rw [getYearNote] at hfirst
    simp only [resolveRoot] at hfirst
    cases hs : findFirstNoteWithQuery s (.labelEq YEAR_LABEL (substr (trim d1) 0 4))
        { ancestorNoteId := some root } with
    | some y1 =>
      rw [hs] at hfirst
      simp only [Result.ok.injEq] at hfirst
      obtain ⟨rfl, rfl⟩ := hfirst
      exact hs
    | none =>
      rw [hs] at hfirst
      simp only [] at hfirst
      cases f1 with
      | zero => simp [getParentNote] at hfirst
      | succ f0 =>
        by_cases htype : orDefault (getOwnedLabelValue s root "calendarType") "monthly" = "monthly"
            ∨ orDefault (getOwnedLabelValue s root "calendarType") "monthly" = "weekly"
        · rw [getParentNote_year f0 env d1 root s htype] at hfirst
          simp only [] at hfirst
          cases ht : getNoteTitle env (orDefault (getOwnedLabelValue s root "yearPattern")
              "\x7byear\x7d") d1 {} with
          | error e => rw [ht] at hfirst; simp at hfirst
          | ok title =>
            rw [ht] at hfirst
            simp only [createContainer_eq, Result.ok.injEq] at hfirst
            obtain ⟨rfl, rfl⟩ := hfirst
            rw [findFirst_append _ rfl, hs]
            have hin : isInSubtree (s ++ [containerNote env s root root title YEAR_LABEL
                (substr (trim d1) 0 4) "yearTemplate"]) (freshId s) root = true := by
              apply isInSubtree_of_parent (p := root)
              · unfold getParentNotes
                rw [getNote_append_fresh _ rfl]
                simp [containerNote]
              · exact isInSubtree_self _ _
            have hmatch : (Query.labelEq YEAR_LABEL (substr (trim d1) 0 4)).matches
                (containerNote env s root root title YEAR_LABEL (substr (trim d1) 0 4)
                  "yearTemplate") = true := by
              simp [containerNote, Query.matches]
            have hid : (containerNote env s root root title YEAR_LABEL (substr (trim d1) 0 4)
                "yearTemplate").noteId = freshId s := rfl
            simp only [hid, hmatch, hin, Bool.and_self, if_true]
        · rw [getParentNote] at hfirst
          have h1 : orDefault (getOwnedLabelValue s root "calendarType") "monthly" ≠ "monthly" :=
            fun h => htype (Or.inl h)
          have h2 : orDefault (getOwnedLabelValue s root "calendarType") "monthly" ≠ "weekly" :=
            fun h => htype (Or.inr h)
          simp [h1, h2] at hfirst


/-- C7 (amended): when `getWeekNote` finds an existing week note, the test is
against the year of the date itself, the first four characters of the trimmed
date string, also for a week 0 date whose label carries the year before.  If
one parent of the found note has that yearNote value, the note is returned and
the store is left as it was.  If no parent has it, every successful call
returns the same note after `cloneTo` attached it to the parent that
`getParentNote` resolved for the week. -/
theorem getWeekNote_found (env : Env) (fuel : Nat) (dateStr : String) (options : Options)
    (root : Nat) (s : Store) (label : String) (weekNote : Nat)
    (hlabel : weekStr env dateStr options = .ok label)
    (hfound : findFirstNoteWithQuery s (.labelEq WEEK_LABEL label)
      { ancestorNoteId := some root } = some weekNote) :
    ((getParentNotes s weekNote).any (fun yearNote =>
        getOwnedLabelValue s yearNote YEAR_LABEL == some (substr (trim dateStr) 0 4)) = true →
      getWeekNote (fuel + 1) env dateStr options (some root) s = .ok weekNote s)
    ∧ ((getParentNotes s weekNote).any (fun yearNote =>
        getOwnedLabelValue s yearNote YEAR_LABEL == some (substr (trim dateStr) 0 4)) = false →
      ∀ n s2, getWeekNote (fuel + 1) env dateStr options (some root) s = .ok n s2 →
        n = weekNote ∧ ∃ parentNote s1,
          getParentNote fuel env "week" dateStr root s = .ok (some parentNote) s1
          ∧ (cloneTo s1 weekNote parentNote).1.success = true
          ∧ s2 = (cloneTo s1 weekNote parentNote).2) := by
  obtain ⟨dateObj, hp⟩ := weekStr_ok_parse hlabel
  constructor
  · intro hany
    rw [getWeekNote]
    simp only [resolveRoot, hp, hlabel, hfound, arrayIsFalsy, hany]
    simp
  · intro hany n s2 hres
    rw [getWeekNote] at hres
    simp only [resolveRoot, hp, hlabel, hfound, arrayIsFalsy, hany] at hres
    simp only [Bool.false_eq_true, if_false] at hres
    cases hpar : getParentNote fuel env "week" dateStr root s with
    | outOfFuel => rw [hpar] at hres; simp at hres
    | error e s1 => rw [hpar] at hres; simp at hres
    | ok parent s1 =>
      rw [hpar] at hres
      cases parent with
      | none => simp at hres
      | some parentNote =>
        simp only [] at hres
        by_cases hsucc : (cloneTo s1 weekNote parentNote).1.success = true
        · simp only [hsucc, Bool.not_true, Bool.false_eq_true, if_false, Result.ok.injEq] at hres
          exact ⟨hres.1.symm, parentNote, s1, rfl, hsucc, hres.2.symm⟩
        · simp [hsucc] at hres


set_option maxRecDepth 100000

/-- C1 (counterexample): a monthly root with the datePattern `{bogus}`, a
canonical date and no container below the root: `getDayNote` raises the unknown
pattern error instead of returning a note, and creates nothing. -/
theorem getDayNote_bogus_pattern_fails :
    getOwnedLabelValue bogusPatternStore 1 "calendarType" = none
    ∧ IsCanonicalDate "2024-03-15"
    ∧ findFirstNoteWithQuery bogusPatternStore (.labelEq YEAR_LABEL "2024")
        { ancestorNoteId := some 1 } = none
    ∧ findFirstNoteWithQuery bogusPatternStore (.labelEq MONTH_LABEL "2024-03")
        { ancestorNoteId := some 1 } = none
    ∧ findFirstNoteWithQuery bogusPatternStore (.labelEq DATE_LABEL "2024-03-15")
        { ancestorNoteId := some 1 } = none
    ∧ getDayNote 6 plainEnv "2024-03-15" (some 1) bogusPatternStore
        = .error (.unknownPattern "bogus") bogusPatternStore := by
  decide

/-- C1 (witness): the chain year, month, day for 2024-03-15 below the default
calendar root. -/
theorem getDayNote_creates_chain_witness :
    ∃ yearNote monthNote dateNote : Note,
      getDayNote 6 plainEnv "2024-03-15" (some 1) monthlyStore
        = .ok dateNote.noteId (monthlyStore ++ [yearNote, monthNote, dateNote])
      ∧ getNote monthlyStore yearNote.noteId = none
      ∧ getNote monthlyStore monthNote.noteId = none
      ∧ getNote monthlyStore dateNote.noteId = none
      ∧ yearNote.noteId < monthNote.noteId ∧ monthNote.noteId < dateNote.noteId
      ∧ yearNote.parents = [1]
      ∧ { type := .label, name := YEAR_LABEL, value := substr "2024-03-15" 0 4 }
          ∈ yearNote.attributes
      ∧ monthNote.parents = [yearNote.noteId]
      ∧ { type := .label, name := MONTH_LABEL, value := substr "2024-03-15" 0 7 }
          ∈ monthNote.attributes
      ∧ dateNote.parents = [monthNote.noteId]
      ∧ { type := .label, name := DATE_LABEL, value := substr "2024-03-15" 0 10 }
          ∈ dateNote.attributes :=
  getDayNote_creates_chain plainEnv 6 monthlyStore 1 "2024-03-15" (by decide)
    (Or.inl (by decide)) (by decide) (by decide) (by decide) (by decide)
    ⟨"2024", by decide⟩ ⟨"03 - March", by decide⟩ ⟨"15 - Friday", by decide⟩

/-- C4 (witness): 2024-03-15 creates the year note 2024, 2024-01-01 then
resolves to that note. -/
theorem getYearNote_same_year_witness :
    getYearNote 2 plainEnv "2024-03-15" (some 1) monthlyStore = .ok 2 yearStore
    ∧ getYearNote 1 plainEnv "2024-01-01" (some 1) yearStore = .ok 2 yearStore :=
  ⟨by decide,
   getYearNote_same_year plainEnv 2 1 monthlyStore yearStore 1 2 "2024-03-15" "2024-01-01"
     (by decide) (by decide) (by decide)⟩

/-- C2 (failing input): `Journal` (note 2, calendarType weekly) is passed
explicitly, the calendar root is `Calendar` (note 1).  The day note is created
below a week note below a year note below `Calendar`: nothing is created below
`Journal`, and the day note is not in the subtree of `Journal`. -/
theorem getDayNote_weekly_ignores_root :
    getDayNote 6 plainEnv "2024-03-15" (some 2) journalStore = .ok 5 journalRunStore
    ∧ getParentNotes journalRunStore 5 = [4]
    ∧ getParentNotes journalRunStore 4 = [3]
    ∧ getParentNotes journalRunStore 3 = [1]
    ∧ isInSubtree journalRunStore 5 2 = false := by
  decide

/-- C3 (failing input): with `Journal` as the explicit weekly root, a second
`getDayNote` for the same date on the store the first call left returns
another note, 6 after 5, and creates a second day note. -/
theorem getDayNote_twice_weekly :
    getDayNote 6 plainEnv "2024-03-15" (some 2) journalStore = .ok 5 journalRunStore
    ∧ getDayNote 6 plainEnv "2024-03-15" (some 2) journalRunStore
      = .ok 6 (journalRunStore ++
          [{ noteId := 6, title := "15 - Friday", isProtected := false,
             attributes := [{ type := .label, name := "dateNote", value := "2024-03-15" }],
             parents := [4] }]) := by
  decide

/-- C6 (failing input): 2024-12-30 has week number 1, the first week of 2025,
and its label is `2024WW1`, keyed to 2024; it is the label of 2024-01-01 as
well. -/
theorem weekStr_late_december :
    getWeek { year := 2024, month := 12, day := 30 } "monday" = .ok 1
    ∧ weekStr plainEnv "2024-12-30" {} = .ok "2024WW1"
    ∧ weekStr plainEnv "2024-01-01" {} = .ok "2024WW1" := by
  decide

/-- C7 (counterexample): 2027-01-01 has week number 0 and the label
`2026WW53`; the week note found has the parent 2026, the year of the label.
`getWeekNote` attaches it to a new year note 2027 all the same. -/
theorem getWeekNote_week0_clones :
    weekStr plainEnv "2027-01-01" {} = .ok "2026WW53"
    ∧ findFirstNoteWithQuery lastWeekStore (.labelEq WEEK_LABEL "2026WW53")
        { ancestorNoteId := some 1 } = some 3
    ∧ getParentNotes lastWeekStore 3 = [2]
    ∧ getOwnedLabelValue lastWeekStore 2 YEAR_LABEL = some "2026"
    ∧ (∃ s2, getWeekNote 4 plainEnv "2027-01-01" {} (some 1) lastWeekStore = .ok 3 s2
        ∧ getParentNotes s2 3 = [2, 4]
        ∧ getOwnedLabelValue s2 4 YEAR_LABEL = some "2027") := by
  refine ⟨by decide, by decide, by decide, by decide, _, rfl, by decide, by decide⟩

/-- C7 (witness): 2026-12-31 has the label `2026WW53`; the week note found has
the parent 2026 and is returned, the store stays as it was. -/
theorem getWeekNote_found_witness :
    weekStr plainEnv "2026-12-31" {} = .ok "2026WW53"
    ∧ getWeekNote 1 plainEnv "2026-12-31" {} (some 1) lastWeekStore = .ok 3 lastWeekStore :=
  ⟨by decide,
   (getWeekNote_found plainEnv 0 "2026-12-31" {} 1 lastWeekStore "2026WW53" 3
     (by decide) (by decide)).1 (by decide)⟩

/-- C8 (failing input): the week note found has no parents at all.
`getWeekNote` does not raise the structural error; it resolves the parent,
which creates the year note 2024, and goes on to `cloneTo`, whose refusal is
the error of the call. -/
theorem getWeekNote_without_parents :
    findFirstNoteWithQuery rootWeekStore (.labelEq WEEK_LABEL "2024WW11")
        { ancestorNoteId := some 0 } = some 0
    ∧ getParentNotes rootWeekStore 0 = []
    ∧ getWeekNote 4 plainEnv "2024-03-15" {} (some 0) rootWeekStore
      = .error (.cloneFailed "2024-03-15" "Cloning note here would create a cycle.")
          (rootWeekStore ++
            [{ noteId := 1, title := "2024", isProtected := false,
               attributes := [{ type := .label, name := "yearNote", value := "2024" },
                              { type := .label, name := "sorted", value := "" }],
               parents := [0] }]) := by
  decide

/-- C9 (counterexample): the day note that `getDayNote` creates has the
dateNote label only; it has no `sorted` label. -/
theorem getDayNote_not_sorted :
    ∃ s2, getDayNote 6 plainEnv "2024-03-15" (some 1) monthlyStore = .ok 4 s2
      ∧ getNote monthlyStore 4 = none
      ∧ (getNote s2 4).map (fun n => n.attributes)
          = some [{ type := .label, name := "dateNote", value := "2024-03-15" }]
      ∧ getOwnedLabelValue s2 4 "sorted" = none := by
  refine ⟨_, rfl, by decide, by decide, by decide⟩

/-- C10 (failing input): under a calendar root with calendarType weekly,
`getMonthNote` creates a note labelled monthNote, as a child of the day note
of the date. -/
theorem getMonthNote_weekly_creates_month :
    getOwnedLabelValue weeklyStore 1 "calendarType" = some "weekly"
    ∧ getMonthNote 8 plainEnv "2024-03-15" (some 1) weeklyStore
      = .ok 5 (weeklyStore ++
          [{ noteId := 2, title := "2024", isProtected := false,
             attributes := [{ type := .label, name := "yearNote", value := "2024" },
                            { type := .label, name := "sorted", value := "" }],
             parents := [1] },
           { noteId := 3, title := "WW11", isProtected := false,
             attributes := [{ type := .label, name := "weekNote", value := "2024WW11" },
                            { type := .label, name := "sorted", value := "" }],
             parents := [2] },
           { noteId := 4, title := "15 - Friday", isProtected := false,
             attributes := [{ type := .label, name := "dateNote", value := "2024-03-15" }],
             parents := [3] },
           { noteId := 5, title := "03 - March", isProtected := false,
             attributes := [{ type := .label, name := "monthNote", value := "2024-03" },
                            { type := .label, name := "sorted", value := "" }],
             parents := [4] }]) := by
  decide


/-- The week label outside the legacy years: for a canonical date with week
number `w`, the label that `getWeekNote` searches for and attaches is the year
of the date, `WW` and `w` when `w` is not 0; when `w` is 0 and the year before
is not one of the years 0 to 99, it is the year before, `WW` and the week
number of its 31 December.  A note that `getWeekNote` returns is either the
note found under that label or, when none is found, a note that carries that
weekNote label. -/
theorem getWeekNote_label (env : Env) (d : String) (options : Options) (dateObj : LocalDate)
    (w lastWeek : Nat)
    (hd : IsCanonicalDate d)
    (hp : parseLocalDate d = .ok dateObj)
    (hw : env.getWeek dateObj (orDefault options.startOfTheWeek "monday") = .ok w)
    (hyear : w = 0 → dateObj.getFullYear - 1 < 0 ∨ 99 < dateObj.getFullYear - 1)
    (hlast : w = 0 → env.getWeek { year := dateObj.getFullYear - 1, month := 12, day := 31 }
      (orDefault options.startOfTheWeek "monday") = .ok lastWeek) :
    weekStr env d options = .ok (specWeekLabel (substr d 0 4) dateObj.getFullYear w lastWeek)
    ∧ ∀ (fuel root : Nat) (s : Store) (n : Nat) (s2 : Store),
        getWeekNote fuel env d options (some root) s = .ok n s2 →
        findFirstNoteWithQuery s
            (.labelEq WEEK_LABEL (specWeekLabel (substr d 0 4) dateObj.getFullYear w lastWeek))
            { ancestorNoteId := some root } = some n
        ∨ (findFirstNoteWithQuery s
            (.labelEq WEEK_LABEL (specWeekLabel (substr d 0 4) dateObj.getFullYear w lastWeek))
            { ancestorNoteId := some root } = none
          ∧ ∃ note, getNote s2 n = some note
            ∧ { type := .label, name := WEEK_LABEL,
                value := specWeekLabel (substr d 0 4) dateObj.getFullYear w lastWeek }
              ∈ note.attributes) := by
  have hstr : weekStr env d options
      = .ok (specWeekLabel (substr d 0 4) dateObj.getFullYear w lastWeek) := by
    unfold weekStr specWeekLabel
    simp only [hp, hw, trim_canonical hd]
    by_cases h0 : w = 0
    · subst h0
      have hnew : newDate (dateObj.getFullYear - 1) 11 31
          = { year := dateObj.getFullYear - 1, month := 12, day := 31 } := by
        unfold newDate
        have hy := hyear rfl
        rw [if_neg (by omega)]
      simp [hnew, hlast rfl, fourDigits]
    · simp [h0]
  refine ⟨hstr, ?_⟩
  intro fuel root s n s2 hres
  cases fuel with
  | zero => simp [getWeekNote] at hres
  | succ f =>
    rw [getWeekNote] at hres
    simp only [resolveRoot, hp, hstr] at hres
    cases hfind : findFirstNoteWithQuery s
        (.labelEq WEEK_LABEL (specWeekLabel (substr d 0 4) dateObj.getFullYear w lastWeek))
        { ancestorNoteId := some root } with
    | some weekNote =>
      left
      rw [hfind] at hres
      simp only [arrayIsFalsy, Bool.false_eq_true, if_false] at hres
      split_ifs at hres
      · simp only [Result.ok.injEq] at hres
        rw [hres.1]
      · split at hres
        · simp at hres
        · simp at hres
        · simp at hres
        · split_ifs at hres
          simp only [Result.ok.injEq] at hres
          rw [hres.1]
    | none =>
      right
      refine ⟨rfl, ?_⟩
      rw [hfind] at hres
      simp only [] at hres
      split at hres
      · simp at hres
      · simp at hres
      · rename_i heq
        exact absurd heq (getParentNote_ne_none _ _ _ _ _ _ _)
      · split at hres
        · simp at hres
        · simp only [createContainer_eq, Result.ok.injEq] at hres
          obtain ⟨rfl, rfl⟩ := hres
          refine ⟨_, getNote_append_fresh _ rfl, ?_⟩
          simp [containerNote]

/-- C5 (failing input): 0100-01-01 has week number 0, so the label is keyed to
the year 0099.  Its week part is 52, the week number of 1999-12-31, because
`new Date(99, 11, 31)` is a day of 1999; the week number of 31 December 0099,
which the formula asks for, is 53. -/
theorem weekStr_legacy_year :
    IsCanonicalDate "0100-01-01"
    ∧ getWeek { year := 100, month := 1, day := 1 } "monday" = .ok 0
    ∧ getWeek { year := 99, month := 12, day := 31 } "monday" = .ok 53
    ∧ newDate 99 11 31 = { year := 1999, month := 12, day := 31 }
    ∧ getWeek { year := 1999, month := 12, day := 31 } "monday" = .ok 52
    ∧ weekStr plainEnv "0100-01-01" {} = .ok "0099WW52"
    ∧ specWeekLabel (substr "0100-01-01" 0 4) 100 0 53 = "0099WW53"
    ∧ (∃ s2, getWeekNote 4 plainEnv "0100-01-01" {} (some 1) weeklyStore = .ok 3 s2
        ∧ getOwnedLabelValue s2 3 WEEK_LABEL = some "0099WW52") := by
  refine ⟨by decide, by decide, by decide, by decide, by decide, by decide, by decide,
    _, rfl, by decide⟩

/-- C9 (amended): for a canonical date string `d`, every note that
`getYearNote`, `getMonthNote`, `getDayNote` or `getWeekNote` adds to the
store, whether the call returns or raises, carries exactly the labels of one
granularity with its canonical value: yearNote with the first four characters
of `d` and `sorted`; monthNote with the first seven characters and `sorted`;
weekNote with the week label of `d` and `sorted`; dateNote with `d` and no
`sorted`; or, for a calendar root created on the way, `calendarRoot` and
`sorted`.  The note that a resolver creates and returns carries the labels of
its own granularity: `getYearNote` yearNote and `sorted`, `getMonthNote`
monthNote and `sorted`, `getWeekNote` weekNote with the week label for the
start of the week of the call and `sorted`, `getDayNote` dateNote alone. -/
theorem created_notes_tagged (fuel : Nat) (env : Env) (d : String) (options : Options)
    (rootArg : Option Nat) (s : Store) (hd : IsCanonicalDate d) :
    (∀ r : Result Nat,
        (r = getYearNote fuel env d rootArg s ∨ r = getMonthNote fuel env d rootArg s
          ∨ r = getDayNote fuel env d rootArg s
          ∨ r = getWeekNote fuel env d options rootArg s) →
        ∀ s2, r.finalStore = some s2 →
        ∀ note ∈ s2, getNote s note.noteId = none → IsTagged env d options note)
    ∧ (∀ n s2 note, getYearNote fuel env d rootArg s = .ok n s2 → getNote s n = none →
        getNote s2 n = some note →
        note.labels
          = [{ type := .label, name := YEAR_LABEL, value := substr d 0 4 }, sortedLabel])
    ∧ (∀ n s2 note, getMonthNote fuel env d rootArg s = .ok n s2 → getNote s n = none →
        getNote s2 n = some note →
        note.labels
          = [{ type := .label, name := MONTH_LABEL, value := substr d 0 7 }, sortedLabel])
    ∧ (∀ n s2 note, getDayNote fuel env d rootArg s = .ok n s2 → getNote s n = none →
        getNote s2 n = some note →
        note.labels = [{ type := .label, name := DATE_LABEL, value := d }])
    ∧ (∀ n s2 note, getWeekNote fuel env d options rootArg s = .ok n s2 → getNote s n = none →
        getNote s2 n = some note →
        ∃ weekLabel, weekStr env d options = .ok weekLabel
          ∧ note.labels
            = [{ type := .label, name := WEEK_LABEL, value := weekLabel }, sortedLabel]) := by
  refine ⟨?_, ?_, ?_, ?_, ?_⟩
  · intro r hr s2 hs note hn hnew
    obtain ⟨_, hY, hM, hD, hW⟩ := grows_all env d hd fuel
    have hg : Grows env d options s s2 := by
      rcases hr with rfl | rfl | rfl | rfl
      · exact grows_mono (hY _ _ _ hs)
      · exact grows_mono (hM _ _ _ hs)
      · exact grows_mono (hD _ _ _ hs)
      · exact hW _ _ _ _ hs
    exact grows_new_tagged hg hn hnew
  · intro n s2 note h hnew hn
    exact getYearNote_created_labels fuel env d hd rootArg s n s2 note h hnew hn
  · intro n s2 note h hnew hn
    exact getMonthNote_created_labels fuel env d hd rootArg s n s2 note h hnew hn
  · intro n s2 note h hnew hn
    exact getDayNote_created_labels fuel env d hd rootArg s n s2 note h hnew hn
  · intro n s2 note h hnew hn
    exact getWeekNote_created_labels fuel env d hd options rootArg s n s2 note h hnew hn

/-- C9 (witness): resolving the day 2024-03-15 below the default calendar root
creates the notes 2, 3 and 4.  The returned note 4 has the one label dateNote
with 2024-03-15, and the month note 3 created on the way is tagged for that
date. -/
theorem created_notes_tagged_witness :
    IsCanonicalDate "2024-03-15"
    ∧ getDayNote 6 plainEnv "2024-03-15" (some 1) monthlyStore = .ok 4 dayStore
    ∧ Note.labels { noteId := 4, title := "15 - Friday", isProtected := false,
                    attributes := [{ type := .label, name := "dateNote", value := "2024-03-15" }],
                    parents := [3] }
        = [{ type := .label, name := DATE_LABEL, value := "2024-03-15" }]
    ∧ IsTagged plainEnv "2024-03-15" {}
        { noteId := 3, title := "03 - March", isProtected := false,
          attributes := [{ type := .label, name := "monthNote", value := "2024-03" },
                         { type := .label, name := "sorted", value := "" }],
          parents := [2] } :=
  ⟨by decide, by decide,
   (created_notes_tagged 6 plainEnv "2024-03-15" {} (some 1) monthlyStore (by decide)).2.2.2.1
     4 dayStore _ (by decide) (by decide) (by decide),
   (created_notes_tagged 6 plainEnv "2024-03-15" {} (some 1) monthlyStore (by decide)).1
     _ (Or.inr (Or.inr (Or.inl rfl))) dayStore (by decide) _ (by decide) (by decide)⟩


/-- C11: `getNoteTitle` fails whenever the pattern holds a brace-delimited
token that is not one of the ten known ones, for every date string.  When the
date string parses and the week numbering accepts the start of the week, the
error is the unknown-pattern error of such a token of the pattern, and its
message holds the token in braces.  A pattern without any token is returned as
it is for every date string that parses. -/
theorem getNoteTitle_unknown_token (env : Env) (pattern dateStr : String) (options : Options) :
    (∀ token, HasToken pattern.data token → token ∉ knownTokens →
      (∃ e, getNoteTitle env pattern dateStr options = .error e)
      ∧ ∀ dateObj w, parseLocalDate dateStr = .ok dateObj →
          env.getWeek dateObj (orDefault options.startOfTheWeek "monday") = .ok w →
          ∃ t, getNoteTitle env pattern dateStr options = .error (.unknownPattern t)
            ∧ t ∉ knownTokens ∧ HasToken pattern.data t
            ∧ (Error.unknownPattern t).message = "unknown pattern \x7b" ++ t ++ "\x7d")
    ∧ ((∀ token, ¬ HasToken pattern.data token) →
      ∀ dateObj, parseLocalDate dateStr = .ok dateObj →
        getNoteTitle env pattern dateStr options = .ok pattern) := by
  constructor
  · intro token htok hunknown
    refine ⟨getNoteTitle_fails env pattern dateStr options token htok hunknown, ?_⟩
    intro dateObj w hp hw
    obtain ⟨e, he⟩ := getNoteTitle_fails env pattern dateStr options token htok hunknown
    rw [getNoteTitle_eq _ _ _ _ _ hp] at he
    cases hr : replaceTokens (expandToken env dateStr dateObj
        (DAYS.getD dateObj.getDay "undefined") (orDefault options.startOfTheWeek "monday")) 0
        pattern.data with
    | ok title => rw [hr] at he; cases he
    | error e1 =>
      obtain ⟨t, ht1, ht2, ht3⟩ := replaceTokens_error _
        (fun tok e2 h2 => expandToken_error env dateStr dateObj _ _ w hw tok e2 h2) _ _ _ hr
      refine ⟨t, ?_, ht2, ht3, rfl⟩
      rw [getNoteTitle_eq _ _ _ _ _ hp, hr, ht1]
  · intro hno dateObj hp
    rw [getNoteTitle_eq _ _ _ _ _ hp, replaceTokens_no_token _ _ hno]

/-- C11 (witness): the pattern `{bogus}` fails for 2024-03-15 with the error
of the token `bogus`, whose message is `unknown pattern {bogus}`; the pattern
`Diary` comes back as it is. -/
theorem getNoteTitle_unknown_token_witness :
    (∃ t, getNoteTitle plainEnv "\x7bbogus\x7d" "2024-03-15" {} = .error (.unknownPattern t)
      ∧ t ∉ knownTokens ∧ HasToken "\x7bbogus\x7d".data t
      ∧ (Error.unknownPattern t).message = "unknown pattern \x7b" ++ t ++ "\x7d")
    ∧ getNoteTitle plainEnv "\x7bbogus\x7d" "2024-03-15" {} = .error (.unknownPattern "bogus")
    ∧ (Error.unknownPattern "bogus").message = "unknown pattern \x7bbogus\x7d"
    ∧ getNoteTitle plainEnv "Diary" "2024-03-15" {} = .ok "Diary" :=
  ⟨((getNoteTitle_unknown_token plainEnv "\x7bbogus\x7d" "2024-03-15" {}).1 "bogus"
      ⟨[], [], by decide, by decide, by decide⟩ (by decide)).2
      { year := 2024, month := 3, day := 15 } 11 (by decide) (by decide),
   by decide, by decide, by decide⟩

/-- C12: for a canonical date string the pattern `{monthNumberPadded} - {month}`
expands to the two-digit month number, ` - ` and the full English name of the
month. -/
theorem getNoteTitle_month_pattern (env : Env) (d : String) (options : Options)
    (dateObj : LocalDate)
    (hd : IsCanonicalDate d) (hp : parseLocalDate d = .ok dateObj) :
    getNoteTitle env "\x7bmonthNumberPadded\x7d - \x7bmonth\x7d" d options
      = .ok (twoDigits dateObj.month ++ " - " ++ englishMonthName dateObj.month) := by
  obtain ⟨hpad, h1, h12⟩ := canonical_month hd hp
  have hpat : ("\x7bmonthNumberPadded\x7d - \x7bmonth\x7d" : String).data
      = '{' :: ("monthNumberPadded".data ++ '}' ::
          (' ' :: '-' :: ' ' :: '{' :: ("month".data ++ '}' :: []))) := by decide
  rw [getNoteTitle_eq _ _ _ _ _ hp, hpat]
  rw [replaceTokens_token _ "monthNumberPadded".data _ (by decide) (by decide)]
  rw [replaceTokens_plain _ ' ' _ (Or.inl (by decide))]
  rw [replaceTokens_plain _ '-' _ (Or.inl (by decide))]
  rw [replaceTokens_plain _ ' ' _ (Or.inl (by decide))]
  rw [replaceTokens_token _ "month".data _ (by decide) (by decide)]
  have e1 : expandToken env d dateObj (DAYS.getD dateObj.getDay "undefined")
      (orDefault options.startOfTheWeek "monday") ⟨"monthNumberPadded".data⟩
      = .ok (substr d 5 2) := by
    unfold expandToken
    rw [if_neg (by decide), if_neg (by decide), if_pos (by decide)]
  have e2 : expandToken env d dateObj (DAYS.getD dateObj.getDay "undefined")
      (orDefault options.startOfTheWeek "monday") ⟨"month".data⟩
      = .ok (MONTHS.getD dateObj.getMonth "undefined") := by
    unfold expandToken
    rw [if_neg (by decide), if_pos (by decide)]
  rw [e1, e2]
  simp only [replaceTokens, LocalDate.getMonth, monthName_eq _ h1 h12, hpad]
  congr 1
  apply String.ext
  simp [String.data_append]

/-- C12 (witness): 2024-03-15 gives `03 - March`. -/
theorem getNoteTitle_month_pattern_witness :
    getNoteTitle plainEnv "\x7bmonthNumberPadded\x7d - \x7bmonth\x7d" "2024-03-15" {}
      = .ok "03 - March" :=
  getNoteTitle_month_pattern plainEnv "2024-03-15" {} { year := 2024, month := 3, day := 15 }
    (by decide) (by decide)

/-- C13 (amended): the token `weekNumberPadded` expands to the week number with
one zero before it when the week number is at most 9, the week number 0
included, which gives `00`; a week number of 10 or more is left as it is. -/
theorem getNoteTitle_weekNumberPadded (env : Env) (dateStr : String) (options : Options)
    (dateObj : LocalDate) (w : Nat)
    (hp : parseLocalDate dateStr = .ok dateObj)
    (hw : env.getWeek dateObj (orDefault options.startOfTheWeek "monday") = .ok w) :
    (w ≤ 9 → getNoteTitle env "\x7bweekNumberPadded\x7d" dateStr options
      = .ok ("0" ++ toString w))
    ∧ (10 ≤ w → getNoteTitle env "\x7bweekNumberPadded\x7d" dateStr options = .ok (toString w))
    ∧ (w = 0 → getNoteTitle env "\x7bweekNumberPadded\x7d" dateStr options = .ok "00") := by
  have hpat : ("\x7bweekNumberPadded\x7d" : String).data
      = '{' :: ("weekNumberPadded".data ++ '}' :: []) := by decide
  have hval : getNoteTitle env "\x7bweekNumberPadded\x7d" dateStr options
      = .ok (if w ≤ 9 then "0" ++ toString w else toString w) := by
    rw [getNoteTitle_eq _ _ _ _ _ hp, hpat]
    rw [replaceTokens_token _ "weekNumberPadded".data _ (by decide) (by decide)]
    have e1 : expandToken env dateStr dateObj (DAYS.getD dateObj.getDay "undefined")
        (orDefault options.startOfTheWeek "monday") ⟨"weekNumberPadded".data⟩
        = .ok (if w ≤ 9 then "0" ++ toString w else toString w) := by
      unfold expandToken
      rw [if_neg (by decide), if_neg (by decide), if_neg (by decide), if_neg (by decide),
        if_pos (by decide), hw]
      simp only []
      split_ifs <;> rfl
    rw [e1]
    simp [replaceTokens]
  refine ⟨?_, ?_, ?_⟩
  · intro h; rw [hval, if_pos h]
  · intro h; rw [hval, if_neg (by omega)]
  · intro h; subst h; rw [hval]; rfl

/-- C13 (counterexample): 2027-01-01 has week number 0 and the token
`weekNumberPadded` expands to `00`, not to the unpadded `0`. -/
theorem getNoteTitle_week0_padded :
    getWeek { year := 2027, month := 1, day := 1 } "monday" = .ok 0
    ∧ getNoteTitle plainEnv "\x7bweekNumberPadded\x7d" "2027-01-01" {} = .ok "00"
    ∧ getNoteTitle plainEnv "\x7bweekNumberPadded\x7d" "2027-01-01" {} ≠ .ok "0" := by
  decide

/-- C13 (witness): 2024-03-15 has week number 11, left as it is; 2024-01-01 has
week number 1, padded to `01`. -/
theorem getNoteTitle_weekNumberPadded_witness :
    getNoteTitle plainEnv "\x7bweekNumberPadded\x7d" "2024-01-01" {} = .ok ("0" ++ toString 1)
    ∧ getNoteTitle plainEnv "\x7bweekNumberPadded\x7d" "2024-03-15" {} = .ok (toString 11) :=
  ⟨(getNoteTitle_weekNumberPadded plainEnv "2024-01-01" {} { year := 2024, month := 1, day := 1 }
      1 (by decide) (by decide)).1 (by decide),
   (getNoteTitle_weekNumberPadded plainEnv "2024-03-15" {} { year := 2024, month := 3, day := 15 }
      11 (by decide) (by decide)).2.1 (by decide)⟩


/-- C14: with an explicitly passed root, when the search below the root finds
a note that carries the target label, `getYearNote`, `getMonthNote` and
`getDayNote` return that note and leave the store as it was. -/
theorem hit_path_read_only (env : Env) (fuel : Nat) (d : String) (root : Nat) (s : Store)
    (note : Nat) :
    (findFirstNoteWithQuery s (.labelEq YEAR_LABEL (substr (trim d) 0 4))
        { ancestorNoteId := some root } = some note →
      getYearNote (fuel + 1) env d (some root) s = .ok note s)
    ∧ (findFirstNoteWithQuery s (.labelEq MONTH_LABEL (substr d 0 7))
        { ancestorNoteId := some root } = some note →
      getMonthNote (fuel + 1) env d (some root) s = .ok note s)
    ∧ (findFirstNoteWithQuery s (.labelEq DATE_LABEL (substr (trim d) 0 10))
        { ancestorNoteId := some root } = some note →
      getDayNote (fuel + 1) env d (some root) s = .ok note s) := by
  refine ⟨?_, ?_, ?_⟩
  · intro h
    rw [getYearNote]
    simp only [resolveRoot, h]
  · intro h
    rw [getMonthNote]
    simp only [resolveRoot, h]
  · intro h
    rw [getDayNote]
    simp only [resolveRoot, h]

/-- C14 (witness): in the store that holds the containers of 2024-03-15 the
three resolvers return the year, month and day note and change nothing. -/
theorem hit_path_read_only_witness :
    getYearNote 1 plainEnv "2024-03-15" (some 1) dayStore = .ok 2 dayStore
    ∧ getMonthNote 1 plainEnv "2024-03-15" (some 1) dayStore = .ok 3 dayStore
    ∧ getDayNote 1 plainEnv "2024-03-15" (some 1) dayStore = .ok 4 dayStore :=
  ⟨(hit_path_read_only plainEnv 0 "2024-03-15" 1 dayStore 2).1 (by decide),
   (hit_path_read_only plainEnv 0 "2024-03-15" 1 dayStore 3).2.1 (by decide),
   (hit_path_read_only plainEnv 0 "2024-03-15" 1 dayStore 4).2.2 (by decide)⟩

/-- C15 (amended): `getParentNote` fails with the configuration error when the
calendarType label of the root has a value that is not empty and is neither
`monthly` nor `weekly`, for every target; for the target `year`, where no
other resolver is called, it fails with that error only then.  An absent
calendarType and one with the empty value count as `monthly` and do not
fail. -/
theorem getParentNote_calendarType (env : Env) (fuel : Nat) (label d : String) (root : Nat)
    (s : Store) :
    ((∃ v, getOwnedLabelValue s root "calendarType" = some v
        ∧ v ≠ "" ∧ v ≠ "monthly" ∧ v ≠ "weekly") →
      getParentNote (fuel + 1) env label d root s = .error .calendarType s)
    ∧ ((∃ s1, getParentNote (fuel + 1) env "year" d root s = .error .calendarType s1) →
      ∃ v, getOwnedLabelValue s root "calendarType" = some v
        ∧ v ≠ "" ∧ v ≠ "monthly" ∧ v ≠ "weekly")
    ∧ ((getOwnedLabelValue s root "calendarType" = none
        ∨ getOwnedLabelValue s root "calendarType" = some "") →
      orDefault (getOwnedLabelValue s root "calendarType") "monthly" = "monthly"
      ∧ getParentNote (fuel + 1) env "year" d root s = .ok (some root) s) := by
  refine ⟨?_, ?_, ?_⟩
  · rintro ⟨v, hv, h0, h1, h2⟩
    rw [getParentNote]
    have ht : orDefault (getOwnedLabelValue s root "calendarType") "monthly" = v := by
      simp [hv, orDefault, h0]
    simp only [ht]
    rw [if_pos ⟨h1, h2⟩]
  · rintro ⟨s1, h⟩
    by_cases hvalid : orDefault (getOwnedLabelValue s root "calendarType") "monthly" = "monthly"
        ∨ orDefault (getOwnedLabelValue s root "calendarType") "monthly" = "weekly"
    · rw [getParentNote_year fuel env d root s hvalid] at h
      cases h
    · cases hv : getOwnedLabelValue s root "calendarType" with
      | none => simp [hv, orDefault] at hvalid
      | some v =>
        refine ⟨v, rfl, ?_, ?_, ?_⟩
        · intro h0
          simp [hv, orDefault, h0] at hvalid
        · intro h1
          simp [hv, orDefault, h1] at hvalid
        · intro h2
          apply hvalid
          right
          simp [hv, orDefault, h2]
  · intro habs
    have hm : orDefault (getOwnedLabelValue s root "calendarType") "monthly" = "monthly" := by
      rcases habs with h | h <;> simp [h, orDefault]
    exact ⟨hm, getParentNote_year fuel env d root s (Or.inl hm)⟩

/-- C15 (counterexample): the calendarType label of the root is set, to the
empty value, which is neither `monthly` nor `weekly`; determining a parent
does not fail and `getDayNote` builds the monthly chain. -/
theorem getParentNote_empty_calendarType :
    getOwnedLabelValue emptyTypeStore 1 "calendarType" = some ""
    ∧ getParentNote 1 plainEnv "year" "2024-03-15" 1 emptyTypeStore
        = .ok (some 1) emptyTypeStore
    ∧ (∃ s2, getDayNote 6 plainEnv "2024-03-15" (some 1) emptyTypeStore = .ok 4 s2
        ∧ getOwnedLabelValue s2 3 MONTH_LABEL = some "2024-03") := by
  refine ⟨by decide, by decide, _, rfl, by decide⟩

/-- C15 (witness): with calendarType `yearly` determining a parent fails with
the configuration error. -/
theorem getParentNote_calendarType_witness :
    getOwnedLabelValue yearlyStore 1 "calendarType" = some "yearly"
    ∧ getParentNote 1 plainEnv "day" "2024-03-15" 1 yearlyStore
        = .error .calendarType yearlyStore :=
  ⟨by decide,
   (getParentNote_calendarType plainEnv 0 "day" "2024-03-15" 1 yearlyStore).1
     ⟨"yearly", by decide, by decide, by decide, by decide⟩⟩

/-- C16 (failing input): for a target that is not in the active pattern,
`getParentNote` does not yield null.  For `month` under a weekly root and for
`week` under a monthly root it resolves the day note of the date, creating it
and its ancestors, and returns it. -/
theorem getParentNote_absent_granularity :
    getParentNote 7 plainEnv "month" "2024-03-15" 1 weeklyStore = .ok (some 4) weeklyDayStore
    ∧ getOwnedLabelValue weeklyDayStore 4 DATE_LABEL = some "2024-03-15"
    ∧ getParentNote 7 plainEnv "week" "2024-03-15" 1 monthlyStore = .ok (some 4) dayStore
    ∧ getOwnedLabelValue dayStore 4 DATE_LABEL = some "2024-03-15" := by
  decide

/-- C18: for every label string, date and root, what `getParentNote` returns
is a note, never null: the loop leaves `root` or a segment of the pattern, and
the `switch` has a case for each. -/
theorem getParentNote_never_null (fuel : Nat) (env : Env) (label dateStr : String)
    (rootNote : Nat) (s s1 : Store) (parent : Option Nat)
    (h : getParentNote fuel env label dateStr rootNote s = .ok parent s1) :
    ∃ note, parent = some note := by
  cases parent with
  | some note => exact ⟨note, rfl⟩
  | none => exact absurd h (getParentNote_ne_none fuel env label dateStr rootNote s s1)

/-- C18 (witness): for the label `foo`, which no pattern holds, `getParentNote`
returns the day note. -/
theorem getParentNote_never_null_witness :
    getParentNote 7 plainEnv "foo" "2024-03-15" 1 monthlyStore = .ok (some 4) dayStore
    ∧ ∃ note, some 4 = some note :=
  ⟨by decide,
   getParentNote_never_null 7 plainEnv "foo" "2024-03-15" 1 monthlyStore dayStore (some 4)
     (by decide)⟩

/-- C19: with an explicitly passed root whose datePattern holds a token that is
not known, and a date without a day note below the root, `getDayNote` fails and
leaves the store as it was: the title is expanded before a parent is
resolved. -/
theorem getDayNote_bad_pattern_atomic (env : Env) (fuel : Nat) (d : String) (root : Nat)
    (s : Store) (pattern token : String)
    (hpat : getOwnedLabelValue s root "datePattern" = some pattern)
    (htok : HasToken pattern.data token) (hunknown : token ∉ knownTokens)
    (hmiss : findFirstNoteWithQuery s (.labelEq DATE_LABEL (substr (trim d) 0 10))
      { ancestorNoteId := some root } = none) :
    ∃ e, getDayNote (fuel + 1) env d (some root) s = .error e s := by
  have hne : pattern ≠ "" := by
    intro h
    obtain ⟨pre, post, hsplit, _, _⟩ := htok
    rw [h] at hsplit
    simp at hsplit
  have hor : orDefault (getOwnedLabelValue s root "datePattern")
      "\x7bdayInMonthPadded\x7d - \x7bweekDay\x7d" = pattern := by
    simp [hpat, orDefault, hne]
  obtain ⟨e, he⟩ := getNoteTitle_fails env pattern (substr (trim d) 0 10) {} token htok hunknown
  refine ⟨e, ?_⟩
  rw [getDayNote]
  simp only [resolveRoot, hmiss, hor, he]

/-- C19 (witness): the root has the datePattern `{bogus}`; `getDayNote` for
2024-03-15 fails and the store is as before. -/
theorem getDayNote_bad_pattern_atomic_witness :
    ∃ e, getDayNote 6 plainEnv "2024-03-15" (some 1) bogusPatternStore
      = .error e bogusPatternStore :=
  getDayNote_bad_pattern_atomic plainEnv 5 "2024-03-15" 1 bogusPatternStore "\x7bbogus\x7d"
    "bogus" (by decide) ⟨[], [], by decide, by decide, by decide⟩ (by decide) (by decide)


/-- C17: with fuel 12 or more, for every store, every root argument (explicit
or left out), every calendar type of the roots and every date string, each of
`getYearNote`, `getMonthNote`, `getWeekNote` and `getDayNote` returns or
raises, and so does `getParentNote` for each of the four granularities: the
calls through `getParentNote` never run deeper than 12, also when the
granularity is not in the active pattern and when the explicit root and the
calendar root differ in type. -/
theorem resolvers_terminate (fuel : Nat) (env : Env) (d : String) (options : Options)
    (rootArg : Option Nat) (root : Nat) (s : Store) (hfuel : 12 ≤ fuel) :
    getYearNote fuel env d rootArg s ≠ .outOfFuel
    ∧ getMonthNote fuel env d rootArg s ≠ .outOfFuel
    ∧ getWeekNote fuel env d options rootArg s ≠ .outOfFuel
    ∧ getDayNote fuel env d rootArg s ≠ .outOfFuel
    ∧ ∀ label ∈ ["year", "month", "week", "day"],
        getParentNote fuel env label d root s ≠ .outOfFuel := by
  obtain ⟨f, rfl⟩ : ∃ f, fuel = f + 12 := ⟨fuel - 12, by omega⟩
  refine ⟨getYearNote_ne (f + 10) env d rootArg s, getMonthNote_ne f env d rootArg s,
    getWeekNote_ne (f + 4) env d options rootArg s, getDayNote_ne (f + 2) env d rootArg s, ?_⟩
  intro label hl
  simp only [List.mem_cons, List.mem_singleton, List.mem_nil_iff, or_false] at hl
  rcases hl with rfl | rfl | rfl | rfl
  · exact getParentNote_year_ne (f + 11) env d root s
  · exact getParentNote_month_ne (f + 1) env d root s
  · exact getParentNote_week_ne (f + 5) env d root s
  · exact getParentNote_day_ne (f + 3) env d root s

/-- C17 (witness): the calendar root is monthly, the explicit root `Journal` is
weekly and a month is asked for, a granularity the weekly pattern does not
have: with fuel 12 the call returns, with fuel 11 it is cut off. -/
theorem resolvers_terminate_witness :
    getMonthNote 12 plainEnv "2024-03-15" (some 2) mixedStore ≠ .outOfFuel
    ∧ getMonthNote 11 plainEnv "2024-03-15" (some 2) mixedStore = .outOfFuel :=
  ⟨(resolvers_terminate 12 plainEnv "2024-03-15" {} (some 2) 2 mixedStore (by decide)).2.1,
   by decide⟩

end DateNotes
